import Mathlib

/-!
Verification of the `nkuase/coursetools` utilities.

The repository is a set of small desktop tools built from stateless text
transformations plus a sequential git batch worker.  This file gives a shallow
embedding of the text-processing functions and of the worker's control flow,
and proves the specified properties about them.

Python strings are modelled as `List Char` (named `Str`); Python string
primitives (`split`, `strip`, `replace`, `lower`, `ljust`, ...) are defined
below, matching CPython semantics on the operations the tools use.  Subprocess
calls are modelled by environments mapping the invoked command to either a
completed-process result (`CmdResult`) or a raised exception carrying its
message (`Except Str CmdResult`); every caller in the sources catches all
exceptions, which the embedding mirrors by explicit case analysis.
-/

/-- Python `str` modelled as a list of characters. -/
abbrev Str := List Char

/-- The characters Python's `str.strip()` / `\s` treat as whitespace. -/
def pyWhitespace : List Char :=
  [' ', '\t', '\n', '\r', '\x0b', '\x0c', '\x1c', '\x1d', '\x1e', '\x1f',
   '\x85', '\xa0', ' ', ' ', ' ', ' ', ' ', ' ',
   ' ', ' ', ' ', ' ', ' ', ' ', ' ',
   ' ', ' ', ' ', '　']

/-- Whitespace test used by `strip`, `rstrip` and the `\s` regex class. -/
def isPyWS (c : Char) : Bool := pyWhitespace.contains c

/-- Python `s.lstrip()`. -/
def pyLstrip (s : Str) : Str := s.dropWhile isPyWS

/-- Python `s.rstrip()`. -/
def pyRstrip (s : Str) : Str := (s.reverse.dropWhile isPyWS).reverse

/-- Python `s.strip()`. -/
def pyStrip (s : Str) : Str := pyLstrip (pyRstrip s)

/-- Python `s.split(sep)` for a single-character separator. -/
def pySplitChar (sep : Char) : Str → List Str
  | [] => [[]]
  | c :: rest =>
    match pySplitChar sep rest with
    | [] => []
    | r :: rs => if c = sep then [] :: r :: rs else (c :: r) :: rs

/-- Python `sep.join(xs)`. -/
def pyJoin (sep : Str) : List Str → Str
  | [] => []
  | [x] => x
  | x :: y :: rest => x ++ sep ++ pyJoin sep (y :: rest)

/-- Python substring test `sub in s`. -/
def pyContains (s sub : Str) : Bool :=
  match s with
  | [] => sub.isEmpty
  | _ :: rest => sub.isPrefixOf s || pyContains rest sub

/-- Python `s.startswith(p)`. -/
def pyStartsWith (s p : Str) : Bool := p.isPrefixOf s

/-- Python `s.lower()` (ASCII case mapping; the matched patterns are ASCII). -/
def pyLower (s : Str) : Str := s.map Char.toLower

/-- Python `s.replace(old, new)` for a single-character `old`. -/
def pyReplaceChar (old : Char) (new : Str) : Str → Str
  | [] => []
  | c :: rest => (if c = old then new else [c]) ++ pyReplaceChar old new rest

/-- Python `s.ljust(n)` (pads with spaces on the right). -/
def pyLjust (n : Nat) (s : Str) : Str := s ++ List.replicate (n - s.length) ' '

/-- Python `s.rjust(n)` (pads with spaces on the left). -/
def pyRjust (n : Nat) (s : Str) : Str := List.replicate (n - s.length) ' ' ++ s

/-- Decimal rendering of a natural number, as Python `str(i)`. -/
def natToStr (n : Nat) : Str := (Nat.repr n).data

/-- Helper for `pySplitWS`: scans the string, `cur` holding the (reversed)
current word. -/
def pySplitWSAux (cur : Str) : Str → List Str
  | [] => if cur = [] then [] else [cur.reverse]
  | c :: rest =>
    if isPyWS c then
      if cur = [] then pySplitWSAux [] rest else cur.reverse :: pySplitWSAux [] rest
    else pySplitWSAux (c :: cur) rest

/-- Python `s.split()` (split on whitespace runs, dropping empty pieces). -/
def pySplitWS (s : Str) : List Str := pySplitWSAux [] s

/-- `max` over a list of naturals (Python `max(..., default 0)` pattern). -/
def listMax (l : List Nat) : Nat := l.foldr max 0

/-! ## marp2html / marp2html_enhanced : configuration loading

`MarpToHtmlConverter.load_config` (identical in `marp2html.py` and
`marp2html_enhanced.py`) reads `marp_converter_config.json`, takes
`config.get('left_percentage', 50)` and returns `max(10, min(90, percentage))`;
any exception (unreadable file, malformed JSON, non-dict top level, or a
`TypeError` from comparing a non-numeric value) yields 50, and an absent file
causes a default config to be written and 50 to be returned. -/

/-- A JSON value as produced by `json.load` (numbers as rationals). -/
inductive JVal where
  | null : JVal
  | bool (b : Bool) : JVal
  | num (q : ℚ) : JVal
  | str (s : Str) : JVal
  | arr (xs : List JVal) : JVal
  | obj (kvs : List (Str × JVal)) : JVal

/-- The observable states of the converter's JSON config file. -/
inductive ConfigFile where
  /-- `os.path.exists` is false. -/
  | absent : ConfigFile
  /-- Opening or JSON-decoding the file raises. -/
  | ioError : ConfigFile
  /-- The file parses to the given JSON value. -/
  | content (j : JVal) : ConfigFile

/-- Python `max(10, min(90, v))` on a JSON value: defined for numbers and
bools (Python bools are ints: `True` is 1, `False` is 0), a `TypeError` —
modelled as `none` — for every other type. -/
def clampPercentage : JVal → Option ℚ
  | JVal.num q => some (max 10 (min 90 q))
  | JVal.bool b => some (max 10 (min 90 (if b then 1 else 0)))
  | _ => none

/-- `MarpToHtmlConverter.load_config` as a function of the config-file state
(`marp2html.py` lines 32-53 and `marp2html_enhanced.py` lines 33-53). -/
def load_config (fs : ConfigFile) : ℚ :=
  match fs with
  | ConfigFile.absent => 50
  | ConfigFile.ioError => 50
  | ConfigFile.content j =>
    match j with
    | JVal.obj kvs =>
      let percentage := (kvs.lookup ("left_percentage".data)).getD (JVal.num 50)
      match clampPercentage percentage with
      | some q => q
      | none => 50
    | _ => 50

/-- C7: Loading the layout-percentage preference is total and range-clamped:
for every state of the marp converter's JSON config file, `load_config`
returns (it is a total function), the returned value lies between 10 and 90
inclusive, and it is 50 when the file is absent or any exception occurs while
reading it. -/
theorem load_config_total_and_clamped (fs : ConfigFile) :
    10 ≤ load_config fs ∧ load_config fs ≤ 90 ∧
    (fs = ConfigFile.absent → load_config fs = 50) ∧
    (fs = ConfigFile.ioError → load_config fs = 50) := by
  refine ⟨?_, ?_, ?_, ?_⟩
  · match fs with
    | ConfigFile.absent => norm_num [load_config]
    | ConfigFile.ioError => norm_num [load_config]
    | ConfigFile.content j =>
      match j with
      | JVal.null | JVal.bool _ | JVal.num _ | JVal.str _ | JVal.arr _ =>
        norm_num [load_config]
      | JVal.obj kvs =>
        simp only [load_config]
        match hcl : clampPercentage ((kvs.lookup ("left_percentage".data)).getD (JVal.num 50)) with
        | none => norm_num
        | some q =>
          match hv : (kvs.lookup ("left_percentage".data)).getD (JVal.num 50) with
          | JVal.num x =>
            rw [hv] at hcl
            simp only [clampPercentage, Option.some_inj] at hcl
            subst hcl
            exact le_max_left 10 _
          | JVal.bool b =>
            rw [hv] at hcl
            simp only [clampPercentage, Option.some_inj] at hcl
            subst hcl
            exact le_max_left 10 _
          | JVal.null | JVal.str _ | JVal.arr _ | JVal.obj _ =>
            rw [hv] at hcl; simp [clampPercentage] at hcl
  · match fs with
    | ConfigFile.absent => norm_num [load_config]
    | ConfigFile.ioError => norm_num [load_config]
    | ConfigFile.content j =>
      match j with
      | JVal.null | JVal.bool _ | JVal.num _ | JVal.str _ | JVal.arr _ =>
        norm_num [load_config]
      | JVal.obj kvs =>
        simp only [load_config]
        match hcl : clampPercentage ((kvs.lookup ("left_percentage".data)).getD (JVal.num 50)) with
        | none => norm_num
        | some q =>
          match hv : (kvs.lookup ("left_percentage".data)).getD (JVal.num 50) with
          | JVal.num x =>
            rw [hv] at hcl
            simp only [clampPercentage, Option.some_inj] at hcl
            subst hcl
            have h1 : min 90 x ≤ 90 := min_le_left 90 x
            have h2 : (10 : ℚ) ≤ 90 := by norm_num
            exact max_le h2 h1
          | JVal.bool b =>
            rw [hv] at hcl
            simp only [clampPercentage, Option.some_inj] at hcl
            subst hcl
            have h1 : min 90 (if b then (1:ℚ) else 0) ≤ 90 := min_le_left _ _
            have h2 : (10 : ℚ) ≤ 90 := by norm_num
            exact max_le h2 h1
          | JVal.null | JVal.str _ | JVal.arr _ | JVal.obj _ =>
            rw [hv] at hcl; simp [clampPercentage] at hcl
  · rintro rfl; rfl
  · rintro rfl; rfl

/-- Witness for C7: `load_config` at concrete config states. -/
theorem load_config_total_and_clamped_witness :
    (ConfigFile.absent = ConfigFile.absent → load_config ConfigFile.absent = 50) ∧
    10 ≤ load_config (ConfigFile.content (JVal.obj [(("left_percentage".data), JVal.num 500)])) ∧
    load_config (ConfigFile.content (JVal.obj [(("left_percentage".data), JVal.num 500)])) ≤ 90 := by
  refine ⟨(load_config_total_and_clamped ConfigFile.absent).2.2.1, ?_, ?_⟩
  · exact (load_config_total_and_clamped
      (ConfigFile.content (JVal.obj [(("left_percentage".data), JVal.num 500)]))).1
  · exact (load_config_total_and_clamped
      (ConfigFile.content (JVal.obj [(("left_percentage".data), JVal.num 500)]))).2.1

/-! ## githubsync : git diagnostics and the batch worker

Subprocess calls are modelled by a per-repository environment `RepoEnv`
holding, for each command the worker can invoke, either the completed-process
result or a raised exception with its message (`Except Str CmdResult`).  Every
function below instruments its source counterpart with the list of commands it
invokes (`GitCmd` / argv lists), so that claims about which subprocesses run
can be stated; the first component is always the source function's return
value. -/

/-- A `pathlib.Path`, as its list of parts. -/
abbrev RepoPath := List Str

/-- A `subprocess.CompletedProcess` (with `text=True`). -/
structure CmdResult where
  returncode : Int
  stdout : Str
  stderr : Str
deriving DecidableEq

/-- Result of a subprocess invocation: a completed process, or a raised
exception carrying `str(e)`. -/
abbrev SubprocResult := Except Str CmdResult

/-- The `error_info` dict built by `GitDiagnostics.analyze_error`. -/
structure ErrorInfo where
  type : Str
  description : Str
  fix_available : Bool
  fix_description : Str
  commands : List Str
deriving DecidableEq

/-- The `health_info` dict of `GitDiagnostics.check_repository_health`. -/
structure HealthInfo where
  healthy : Bool
  issues : List Str
  warnings : List Str
deriving DecidableEq

/-- The `status_info` dict of `GitDiagnostics.check_uncommitted_changes`. -/
structure StatusInfo where
  has_changes : Bool
  files : List Str
  staged : List Str
  untracked : List Str
  modified : List Str
deriving DecidableEq

/-- The fixed git commands the worker and diagnostics can invoke. -/
inductive GitCmd where
  /-- `git branch --show-current` -/
  | branchShowCurrent
  /-- `git status --porcelain` -/
  | statusPorcelain
  /-- `git remote -v` -/
  | remoteV
  /-- `git pull` -/
  | pull
  /-- `git add .` -/
  | add
  /-- `git commit -m <msg>` -/
  | commit
  /-- `git push` -/
  | push
deriving DecidableEq

/-- Environment of one repository: outcome of each command the worker can run
on it, plus the `.git`-directory existence test and the `datetime.now()`
timestamp string used in auto-commit messages. -/
structure RepoEnv where
  gitDirExists : Bool
  branchShowCurrent : SubprocResult
  statusPorcelainHealth : SubprocResult
  remoteV : SubprocResult
  statusPorcelain : SubprocResult
  gitPull : SubprocResult
  gitAdd : SubprocResult
  gitCommit : SubprocResult
  gitPush : SubprocResult
  now : Str

/-- A repository: its path parts and its environment. -/
structure Repo where
  parts : List Str
  env : RepoEnv

/-- `GitDiagnostics.analyze_error` (githubsync.py lines 41-128): classify a
git error message by substring matching on its lowercase form.  The
`repo_path` parameter is unused, as in the source. -/
def analyze_error (error_message : Str) (_repo_path : RepoPath) : ErrorInfo :=
  let error_lower := pyLower error_message
  if pyContains error_lower ("non-fast-forward".data)
      || pyContains error_lower ("tip of your current branch is behind".data) then
    { type := "non_fast_forward".data
      description := "Local branch is behind remote - need to pull first".data
      fix_available := true
      fix_description := "Pull remote changes, then push again".data
      commands := ["git pull --rebase".data, "git push".data] }
  else if pyContains error_lower ("no such ref was fetched".data)
      && pyContains error_lower ("master".data) then
    { type := "branch_mismatch".data
      description := "Local branch tracking old branch name (master vs main)".data
      fix_available := true
      fix_description := "Switch to main branch and update tracking".data
      commands := ["git fetch origin".data,
                   "git checkout -b main origin/main || git checkout main".data,
                   "git branch --set-upstream-to=origin/main main".data] }
  else if pyContains error_lower ("have diverged".data) then
    { type := "diverged_branches".data
      description := "Local and remote branches have diverged".data
      fix_available := true
      fix_description := "Fetch and merge remote changes".data
      commands := ["git fetch origin".data, "git pull --rebase".data] }
  else if (["authentication".data, "permission denied".data,
            "fatal: could not read".data].any (fun t => pyContains error_lower t)) then
    { type := "auth_error".data
      description := "Authentication or permission error".data
      fix_available := false
      fix_description := "Check your SSH keys or access tokens".data
      commands := [] }
  else if pyContains error_lower ("uncommitted changes".data)
      || pyContains error_lower ("working tree clean".data) then
    { type := "uncommitted_changes".data
      description := "Repository has uncommitted changes".data
      fix_available := true
      fix_description := "Stash changes, pull, then restore".data
      commands := ["git stash push -m \"Auto-stash before pull\"".data,
                   "git pull".data, "git stash pop".data] }
  else if (["network".data, "timeout".data, "connection".data,
            "could not resolve".data].any (fun t => pyContains error_lower t)) then
    { type := "network_error".data
      description := "Network connectivity issue".data
      fix_available := false
      fix_description := "Check internet connection and repository URL".data
      commands := [] }
  else
    { type := "unknown".data
      description := "Unknown git error".data
      fix_available := false
      fix_description := "".data
      commands := [] }

/-- The spec's view of the classifier: the fixed priority list of categories
with their trigger tests, in source order. -/
def errorCategoryTable : List (Str × (Str → Bool)) :=
  [("non_fast_forward".data, fun low =>
      pyContains low ("non-fast-forward".data)
      || pyContains low ("tip of your current branch is behind".data)),
   ("branch_mismatch".data, fun low =>
      pyContains low ("no such ref was fetched".data) && pyContains low ("master".data)),
   ("diverged_branches".data, fun low => pyContains low ("have diverged".data)),
   ("auth_error".data, fun low =>
      (["authentication".data, "permission denied".data,
        "fatal: could not read".data].any (fun t => pyContains low t))),
   ("uncommitted_changes".data, fun low =>
      pyContains low ("uncommitted changes".data)
      || pyContains low ("working tree clean".data)),
   ("network_error".data, fun low =>
      (["network".data, "timeout".data, "connection".data,
        "could not resolve".data].any (fun t => pyContains low t)))]

/-- Modelled from the spec: the first category of the priority list whose
trigger substrings occur in the lowercased message, `"unknown"` when none. -/
def classifyErrorSpec (low : Str) : Str :=
  match errorCategoryTable.find? (fun p => p.2 low) with
  | some p => p.1
  | none => "unknown".data

/-- The categories for which the source reports an available fix. -/
def fixableCategories : List Str :=
  ["non_fast_forward".data, "branch_mismatch".data,
   "diverged_branches".data, "uncommitted_changes".data]

/-- The fixed command list per category (empty for the unfixable ones). -/
def fixCommandsSpec (t : Str) : List Str :=
  if t = "non_fast_forward".data then
    ["git pull --rebase".data, "git push".data]
  else if t = "branch_mismatch".data then
    ["git fetch origin".data,
     "git checkout -b main origin/main || git checkout main".data,
     "git branch --set-upstream-to=origin/main main".data]
  else if t = "diverged_branches".data then
    ["git fetch origin".data, "git pull --rebase".data]
  else if t = "uncommitted_changes".data then
    ["git stash push -m \"Auto-stash before pull\"".data,
     "git pull".data, "git stash pop".data]
  else []

/-- C3: Git error classification is a total function of the lowercased error
message via the fixed priority list of substring tests: `analyze_error`
returns the first category in source order whose triggers occur (`"unknown"`
when none), reports `fix_available` exactly for `non_fast_forward`,
`branch_mismatch`, `diverged_branches` and `uncommitted_changes`, and attaches
to each category its fixed command list, non-empty whenever a fix is
available. -/
theorem analyze_error_priority (msg : Str) (rp : RepoPath) :
    (analyze_error msg rp).type = classifyErrorSpec (pyLower msg) ∧
    ((analyze_error msg rp).fix_available = true ↔
      (analyze_error msg rp).type ∈ fixableCategories) ∧
    (analyze_error msg rp).commands = fixCommandsSpec ((analyze_error msg rp).type) ∧
    ((analyze_error msg rp).fix_available = true → (analyze_error msg rp).commands ≠ []) := by
  unfold analyze_error classifyErrorSpec errorCategoryTable
  by_cases h1 : (pyContains (pyLower msg) ("non-fast-forward".data)
      || pyContains (pyLower msg) ("tip of your current branch is behind".data)) = true
  · simp only [h1, if_true, List.find?, fixableCategories, fixCommandsSpec]
    exact ⟨by decide, by decide, by decide, by decide⟩
  · by_cases h2 : (pyContains (pyLower msg) ("no such ref was fetched".data)
        && pyContains (pyLower msg) ("master".data)) = true
    · simp only [h1, h2, if_true, if_false, Bool.false_eq_true, List.find?,
        fixableCategories, fixCommandsSpec]
      exact ⟨by decide, by decide, by decide, by decide⟩
    · by_cases h3 : (pyContains (pyLower msg) ("have diverged".data)) = true
      · simp only [h1, h2, h3, if_true, if_false, Bool.false_eq_true, List.find?,
          fixableCategories, fixCommandsSpec]
        exact ⟨by decide, by decide, by decide, by decide⟩
      · by_cases h4 : ((["authentication".data, "permission denied".data,
            "fatal: could not read".data].any (fun t => pyContains (pyLower msg) t))) = true
        · simp only [h1, h2, h3, h4, if_true, if_false, Bool.false_eq_true, List.find?,
            fixableCategories, fixCommandsSpec]
          exact ⟨by decide, by decide, by decide, by decide⟩
        · by_cases h5 : (pyContains (pyLower msg) ("uncommitted changes".data)
              || pyContains (pyLower msg) ("working tree clean".data)) = true
          · simp only [h1, h2, h3, h4, h5, if_true, if_false, Bool.false_eq_true,
              List.find?, fixableCategories, fixCommandsSpec]
            exact ⟨by decide, by decide, by decide, by decide⟩
          · by_cases h6 : ((["network".data, "timeout".data, "connection".data,
                "could not resolve".data].any (fun t => pyContains (pyLower msg) t))) = true
            · simp only [h1, h2, h3, h4, h5, h6, if_true, if_false, Bool.false_eq_true,
                List.find?, fixableCategories, fixCommandsSpec]
              exact ⟨by decide, by decide, by decide, by decide⟩
            · simp only [h1, h2, h3, h4, h5, h6, if_true, if_false, Bool.false_eq_true,
                List.find?, fixableCategories, fixCommandsSpec]
              exact ⟨by decide, by decide, by decide, by decide⟩

/-- `GitDiagnostics.check_repository_health` (githubsync.py lines 130-190),
paired with the list of git commands it invokes.  An exception from any of the
three subprocess calls is caught and turns into a `'Health check failed: ...'`
issue, keeping the warnings gathered so far. -/
def check_repository_health (env : RepoEnv) : HealthInfo × List GitCmd :=
  if ¬ env.gitDirExists then
    (⟨false, ["Not a git repository".data], []⟩, [])
  else
    match env.branchShowCurrent with
    | Except.error e =>
      (⟨false, ["Health check failed: ".data ++ e], []⟩, [GitCmd.branchShowCurrent])
    | Except.ok r1 =>
      let warnings1 : List Str :=
        if r1.returncode = 0 ∧ pyStrip r1.stdout = [] then
          ["Repository is in detached HEAD state".data]
        else []
      match env.statusPorcelainHealth with
      | Except.error e =>
        (⟨false, ["Health check failed: ".data ++ e], warnings1⟩,
         [GitCmd.branchShowCurrent, GitCmd.statusPorcelain])
      | Except.ok r2 =>
        let warnings2 : List Str :=
          warnings1 ++
            (if r2.returncode = 0 ∧ pyStrip r2.stdout ≠ [] then
              ["Repository has uncommitted changes".data]
            else [])
        match env.remoteV with
        | Except.error e =>
          (⟨false, ["Health check failed: ".data ++ e], warnings2⟩,
           [GitCmd.branchShowCurrent, GitCmd.statusPorcelain, GitCmd.remoteV])
        | Except.ok r3 =>
          if r3.returncode ≠ 0 ∨ pyStrip r3.stdout = [] then
            (⟨false, ["No remote repository configured".data], warnings2⟩,
             [GitCmd.branchShowCurrent, GitCmd.statusPorcelain, GitCmd.remoteV])
          else
            (⟨true, [], warnings2⟩,
             [GitCmd.branchShowCurrent, GitCmd.statusPorcelain, GitCmd.remoteV])

/-- The per-line classification loop of `check_uncommitted_changes`
(githubsync.py lines 216-237), starting from `has_changes = True`. -/
def statusFileLoop (lines : List Str) : StatusInfo :=
  lines.foldl (fun si line =>
    if line.length ≥ 3 then
      let staged_status := line.getD 0 ' '
      let unstaged_status := line.getD 1 ' '
      let filename := line.drop 3
      if staged_status = '?' ∧ unstaged_status = '?' then
        { si with untracked := si.untracked ++ [filename],
                  files := si.files ++ [filename] }
      else
        let si :=
          if staged_status ∉ [' ', '?'] then
            { si with staged := si.staged ++ [filename] }
          else si
        let si :=
          if unstaged_status ∉ [' ', '?'] then
            { si with modified := si.modified ++ [filename] }
          else si
        if filename ∉ si.files then { si with files := si.files ++ [filename] }
        else si
    else si)
    ⟨true, [], [], [], []⟩

/-- `GitDiagnostics.check_uncommitted_changes` (githubsync.py lines 192-244),
paired with the commands it invokes.  An exception makes it assume changes for
safety. -/
def check_uncommitted_changes (env : RepoEnv) : StatusInfo × List GitCmd :=
  match env.statusPorcelain with
  | Except.error e =>
    (⟨true, ["Error checking status: ".data ++ e], [], [], []⟩, [GitCmd.statusPorcelain])
  | Except.ok r =>
    if r.returncode = 0 ∧ pyStrip r.stdout ≠ [] then
      (statusFileLoop (pySplitChar '\n' (pyStrip r.stdout)), [GitCmd.statusPorcelain])
    else
      (⟨false, [], [], [], []⟩, [GitCmd.statusPorcelain])

/-- Python `f"{i}"` for a `returncode` (an `int`). -/
def intToStr (i : Int) : Str := if i < 0 then '-' :: natToStr i.natAbs else natToStr i.toNat

/-- The repository display name used by the worker: `"/".join(parts[-2:])`
for nested paths, else `path.name`. -/
def repoDisplay (parts : List Str) : Str :=
  if parts.length > 2 then pyJoin ("/".data) (parts.drop (parts.length - 2))
  else parts.getLastD []

/-- `GitWorker.perform_pull_operation` (githubsync.py lines 498-535), paired
with the commands it invokes. -/
def perform_pull_operation (env : RepoEnv) (repo_display : Str) : Str × List GitCmd :=
  let si := check_uncommitted_changes env
  let status_info := si.1
  if status_info.has_changes then
    let files_list := status_info.files.take 5
    let files_display :=
      pyJoin (", ".data) files_list ++
        (if status_info.files.length > 5 then
          " (and ".data ++ natToStr (status_info.files.length - 5) ++ " more)".data
        else [])
    ("⚠ ".data ++ repo_display ++ ": SKIPPED pull - uncommitted changes detected".data
       ++ "\n  Uncommitted files: ".data ++ files_display
       ++ "\n  → Commit or stash changes before pulling".data,
     si.2)
  else
    match env.gitPull with
    | Except.error e =>
      ("✗ ".data ++ repo_display ++ ": Pull operation failed - ".data ++ e,
       si.2 ++ [GitCmd.pull])
    | Except.ok r =>
      if r.returncode = 0 then
        let base := "✓ ".data ++ repo_display ++ ": pull successful".data
        let msg :=
          if pyStrip r.stdout ≠ [] then
            let output := pyStrip r.stdout
            if ¬ (["already up to date".data, "up-to-date".data].any
                (fun p => pyContains (pyLower output) p)) then
              base ++ "\n  Output: ".data ++ output
            else base ++ "\n  Repository already up to date".data
          else base
        (msg, si.2 ++ [GitCmd.pull])
      else
        ("✗ ".data ++ repo_display ++ ": pull failed".data
           ++ (if pyStrip r.stderr ≠ [] then "\n  Error: ".data ++ pyStrip r.stderr
               else []),
         si.2 ++ [GitCmd.pull])

/-- The tail of `perform_push_operation` from `operations.append("  → Running:
git push")` on (githubsync.py lines 461-496): run `git push` and build the
final message from the accumulated operations log. -/
def pushStep (env : RepoEnv) (repo_display : Str) (ops : List Str)
    (tr : List GitCmd) : Str × List GitCmd :=
  let ops := ops ++ ["  → Running: git push".data]
  match env.gitPush with
  | Except.error e =>
    ("✗ ".data ++ repo_display ++ ": Push operation failed - ".data ++ e
       ++ "\n".data ++ pyJoin ("\n".data) ops,
     tr ++ [GitCmd.push])
  | Except.ok r =>
    let ops := ops ++ ["  → Push return code: ".data ++ intToStr r.returncode]
      ++ (if pyStrip r.stdout ≠ [] then ["  → Push stdout: ".data ++ pyStrip r.stdout] else [])
      ++ (if pyStrip r.stderr ≠ [] then ["  → Push stderr: ".data ++ pyStrip r.stderr] else [])
    if r.returncode = 0 then
      let ops := ops ++ ["  ✓ Successfully pushed to remote".data]
      let ops := ops ++
        (if pyStrip r.stdout ≠ [] ∧
            ¬ (["up-to-date".data, "up to date".data].any
              (fun p => pyContains (pyLower (pyStrip r.stdout)) p)) then
          ["  📤 Push details: ".data ++ pyStrip r.stdout]
        else [])
      ("✓ ".data ++ repo_display ++ ": push completed successfully".data
         ++ "\n".data ++ pyJoin ("\n".data) ops,
       tr ++ [GitCmd.push])
    else
      ("✗ ".data ++ repo_display ++ ": git push failed".data
         ++ (if pyStrip r.stderr ≠ [] then "\n  Error: ".data ++ pyStrip r.stderr else [])
         ++ (if pyStrip r.stdout ≠ [] then "\n  Output: ".data ++ pyStrip r.stdout else [])
         ++ "\n".data ++ pyJoin ("\n".data) ops,
       tr ++ [GitCmd.push])

/-- `GitWorker.perform_push_operation` (githubsync.py lines 397-496), paired
with the commands it invokes: status check, then for dirty repositories
`git add .` and an auto-commit, then `git push`. -/
def perform_push_operation (env : RepoEnv) (repo_display : Str) : Str × List GitCmd :=
  let ops0 : List Str := ["🔍 Checking status of ".data ++ repo_display ++ "...".data]
  let si := check_uncommitted_changes env
  let status_info := si.1
  if status_info.has_changes then
    let ops1 := ops0 ++ ["📝 Found changes in ".data ++ repo_display ++ ":".data]
      ++ (if status_info.untracked ≠ [] then
            ["  • Untracked: ".data ++ pyJoin (", ".data) (status_info.untracked.take 3)
               ++ (if status_info.untracked.length > 3 then "...".data else [])]
          else [])
      ++ (if status_info.modified ≠ [] then
            ["  • Modified: ".data ++ pyJoin (", ".data) (status_info.modified.take 3)
               ++ (if status_info.modified.length > 3 then "...".data else [])]
          else [])
      ++ (if status_info.staged ≠ [] then
            ["  • Staged: ".data ++ pyJoin (", ".data) (status_info.staged.take 3)
               ++ (if status_info.staged.length > 3 then "...".data else [])]
          else [])
      ++ ["  → Running: git add .".data]
    match env.gitAdd with
    | Except.error e =>
      ("✗ ".data ++ repo_display ++ ": Push operation failed - ".data ++ e
         ++ "\n".data ++ pyJoin ("\n".data) ops1,
       si.2 ++ [GitCmd.add])
    | Except.ok ra =>
      if ra.returncode ≠ 0 then
        ("✗ ".data ++ repo_display ++ ": git add failed".data
           ++ (if pyStrip ra.stderr ≠ [] then "\n  Error: ".data ++ pyStrip ra.stderr else [])
           ++ (if pyStrip ra.stdout ≠ [] then "\n  Output: ".data ++ pyStrip ra.stdout else [])
           ++ "\n".data ++ pyJoin ("\n".data) ops1,
         si.2 ++ [GitCmd.add])
      else
        let ops2 := ops1 ++ ["  ✓ Successfully added all changes".data]
        let commit_msg := "Auto-commit before push - ".data ++ env.now
        let ops3 := ops2 ++
          ["  → Running: git commit -m \x27".data ++ commit_msg ++ "\x27".data]
        match env.gitCommit with
        | Except.error e =>
          ("✗ ".data ++ repo_display ++ ": Push operation failed - ".data ++ e
             ++ "\n".data ++ pyJoin ("\n".data) ops3,
           si.2 ++ [GitCmd.add, GitCmd.commit])
        | Except.ok rc =>
          let ops4 := ops3 ++ ["  → Commit return code: ".data ++ intToStr rc.returncode]
            ++ (if pyStrip rc.stdout ≠ [] then
                  ["  → Commit stdout: ".data ++ pyStrip rc.stdout] else [])
            ++ (if pyStrip rc.stderr ≠ [] then
                  ["  → Commit stderr: ".data ++ pyStrip rc.stderr] else [])
          if rc.returncode ≠ 0 then
            let output_text := pyLower (rc.stdout ++ " ".data ++ rc.stderr)
            if pyContains output_text ("nothing to commit".data)
                || pyContains output_text ("nothing added to commit".data) then
              pushStep env repo_display
                (ops4 ++ ["  ℹ Nothing new to commit (working tree clean)".data])
                (si.2 ++ [GitCmd.add, GitCmd.commit])
            else
              ("✗ ".data ++ repo_display ++ ": git commit failed".data
                 ++ (if pyStrip rc.stderr ≠ [] then
                       "\n  Error: ".data ++ pyStrip rc.stderr else [])
                 ++ (if pyStrip rc.stdout ≠ [] then
                       "\n  Output: ".data ++ pyStrip rc.stdout else [])
                 ++ "\n".data ++ pyJoin ("\n".data) ops4,
               si.2 ++ [GitCmd.add, GitCmd.commit])
          else
            pushStep env repo_display
              (ops4 ++ ["  ✓ Successfully committed changes".data])
              (si.2 ++ [GitCmd.add, GitCmd.commit])
  else
    pushStep env repo_display
      (ops0 ++ ["ℹ No uncommitted changes found in ".data ++ repo_display])
      si.2

/-- The `error_info` dict passed with an `error_output` emission
(`repo_path`, `repo_display`, `analysis`, `health`; `health` is `{}` — here
`none` — in the unreachable run-level exception branches). -/
structure RunErrorInfo where
  repo_parts : List Str
  repo_display : Str
  analysis : ErrorInfo
  health : Option HealthInfo
deriving DecidableEq

/-- Observable actions of `GitWorker.run`: the four Qt signal emissions plus
instrumentation recording each git command invoked (tagged with the 1-based
repository index). -/
inductive Ev where
  | progress (msg : Str)
  | success_output (msg : Str)
  | error_output (msg : Str) (info : RunErrorInfo)
  | finishedSig
  | ran (repoIdx : Nat) (cmd : GitCmd)
deriving DecidableEq

/-- The progress message of `GitWorker.run` for repository `i` of `total`. -/
def progressMsg (i total : Nat) (parts : List Str) : Str :=
  if parts.length > 2 then
    "[".data ++ natToStr i ++ "/".data ++ natToStr total ++ "] Processing: ".data
      ++ pyJoin ("/".data) (parts.drop (parts.length - 2))
  else
    "[".data ++ natToStr i ++ "/".data ++ natToStr total ++ "] Processing: ".data
      ++ parts.getLastD []

/-- The health-check-failure error message of `GitWorker.run`. -/
def healthFailMsg (repo_display : Str) (health_info : HealthInfo) : Str :=
  "✗ ".data ++ repo_display ++ ": Repository health check failed".data
    ++ "\n  Issues: ".data ++ pyJoin (", ".data) health_info.issues

/-- The `error_info` dict built by `GitWorker.run` when the health check
fails. -/
def healthFailInfo (parts : List Str) (repo_display : Str)
    (health_info : HealthInfo) : RunErrorInfo :=
  ⟨parts, repo_display,
   ⟨"health_check_failed".data,
    "Repository health issues: ".data ++ pyJoin (", ".data) health_info.issues,
    false, "Fix repository issues manually".data, []⟩,
   some health_info⟩

/-- The result-signal dispatch of `GitWorker.run` (githubsync.py lines
587-608): messages starting `✓` (with health warnings appended) or `⚠` go to
`success_output`, anything else is analyzed and goes to `error_output`. -/
def classifyResult (health_info : HealthInfo) (parts : List Str)
    (repo_display : Str) (result_msg : Str) : Ev :=
  if pyStartsWith result_msg ("✓".data) then
    Ev.success_output (result_msg ++
      (if health_info.warnings ≠ [] then
        "\n  ⚠ Warnings: ".data ++ pyJoin (", ".data) health_info.warnings
      else []))
  else if pyStartsWith result_msg ("⚠".data) then
    Ev.success_output result_msg
  else
    Ev.error_output result_msg
      ⟨parts, repo_display, analyze_error result_msg parts, some health_info⟩

/-- One iteration of `GitWorker.run`'s repository loop (githubsync.py lines
541-646) for repository `repo` at 1-based index `i` of `total`: progress
signal, health check (gating the operation), then the pull or push operation
and its single result signal.  The `ValueError` raised on an unknown
operation is caught by the loop's own exception handler and becomes an
`error_output` of type `exception`; exceptions from subprocess calls are
caught inside the called helpers, so the loop-level `TimeoutExpired` handler
is not reachable. -/
def processRepo (i total : Nat) (repo : Repo) (operation : Str) : List Ev :=
  let repo_display := repoDisplay repo.parts
  let health := check_repository_health repo.env
  let health_info := health.1
  let healthEvs := health.2.map (Ev.ran i)
  if ¬ health_info.healthy then
    Ev.progress (progressMsg i total repo.parts) ::
      (healthEvs ++
        [Ev.error_output (healthFailMsg repo_display health_info)
          (healthFailInfo repo.parts repo_display health_info)])
  else if operation = "pull".data then
    let r := perform_pull_operation repo.env repo_display
    Ev.progress (progressMsg i total repo.parts) ::
      (healthEvs ++ r.2.map (Ev.ran i)
        ++ [classifyResult health_info repo.parts repo_display r.1])
  else if operation = "push".data then
    let r := perform_push_operation repo.env repo_display
    Ev.progress (progressMsg i total repo.parts) ::
      (healthEvs ++ r.2.map (Ev.ran i)
        ++ [classifyResult health_info repo.parts repo_display r.1])
  else
    let e := "Unknown operation: ".data ++ operation
    Ev.progress (progressMsg i total repo.parts) ::
      (healthEvs ++
        [Ev.error_output ("✗ ".data ++ repo_display ++ ": ".data ++ e)
          ⟨repo.parts, repo_display,
           ⟨"exception".data, "Unexpected error: ".data ++ e, false,
            "Check repository manually".data, []⟩, none⟩])

/-- `GitWorker.run` (githubsync.py lines 537-649): process the repositories
in list order, then emit the `finished` signal. -/
def gitWorkerRun (repos : List Repo) (operation : Str) : List Ev :=
  (repos.enum.map (fun p => processRepo (p.1 + 1) repos.length p.2 operation)).flatten
    ++ [Ev.finishedSig]

/-- Is this event one of the two per-repository result signals? -/
def isResultEv : Ev → Bool
  | Ev.success_output _ => true
  | Ev.error_output _ _ => true
  | _ => false

lemma isResultEv_progress (m : Str) : isResultEv (Ev.progress m) = false := rfl

lemma isResultEv_success (m : Str) : isResultEv (Ev.success_output m) = true := rfl

lemma isResultEv_error (m : Str) (i : RunErrorInfo) :
    isResultEv (Ev.error_output m i) = true := rfl

lemma isResultEv_finished : isResultEv Ev.finishedSig = false := rfl

lemma isResultEv_ran (i : Nat) (c : GitCmd) : isResultEv (Ev.ran i c) = false := rfl

lemma isResultEv_classifyResult (h : HealthInfo) (parts : List Str)
    (d msg : Str) : isResultEv (classifyResult h parts d msg) = true := by
  unfold classifyResult
  split_ifs <;> rfl

lemma classifyResult_ne_finished (h : HealthInfo) (parts : List Str)
    (d msg : Str) : classifyResult h parts d msg ≠ Ev.finishedSig := by
  unfold classifyResult
  split_ifs <;> simp

lemma filter_result_ran_map (i : Nat) (l : List GitCmd) :
    (l.map (Ev.ran i)).filter isResultEv = [] := by
  rw [List.filter_map]
  have h : (isResultEv ∘ Ev.ran i) = fun _ => false := by
    funext c; rfl
  simp [h]

lemma filter_result_processRepo (i total : Nat) (r : Repo) (op : Str) :
    ((processRepo i total r op).filter isResultEv).length = 1 := by
  unfold processRepo
  by_cases hh : (check_repository_health r.env).1.healthy = false <;>
    simp only [hh] <;> split_ifs <;>
    simp [List.filter_append, List.filter_cons, filter_result_ran_map,
      isResultEv_progress, isResultEv_error, isResultEv_classifyResult]

lemma finished_not_mem_processRepo (i total : Nat) (r : Repo) (op : Str) :
    Ev.finishedSig ∉ processRepo i total r op := by
  unfold processRepo
  by_cases hh : (check_repository_health r.env).1.healthy = false <;>
    simp only [hh] <;> split_ifs <;>
    simp [List.mem_append, List.mem_map, classifyResult_ne_finished,
      (classifyResult_ne_finished _ _ _ _).symm]

/-- C4: The git worker processes its repository list strictly sequentially in
list order: the result signals of `GitWorker.run` are the per-repository
result signals concatenated in list order, each repository contributes
exactly one result signal (`success_output` or `error_output`), and the
`finished` signal is emitted exactly once, as the last event. -/
theorem gitWorkerRun_sequential (repos : List Repo) (operation : Str)
    (_hop : operation = "pull".data ∨ operation = "push".data) :
    (gitWorkerRun repos operation).filter isResultEv
      = (repos.enum.map (fun p =>
          (processRepo (p.1 + 1) repos.length p.2 operation).filter isResultEv)).flatten
    ∧ (∀ p ∈ repos.enum,
        ((processRepo (p.1 + 1) repos.length p.2 operation).filter isResultEv).length = 1)
    ∧ (gitWorkerRun repos operation).count Ev.finishedSig = 1
    ∧ (gitWorkerRun repos operation).getLast? = some Ev.finishedSig := by
  refine ⟨?_, ?_, ?_, ?_⟩
  · simp [gitWorkerRun, List.filter_append, List.filter_flatten, List.map_map,
      isResultEv_finished, Function.comp_def]
  · intro p _
    exact filter_result_processRepo (p.1 + 1) repos.length p.2 operation
  · rw [gitWorkerRun, List.count_append]
    have h0 : ((repos.enum.map (fun p =>
        processRepo (p.1 + 1) repos.length p.2 operation)).flatten).count
          Ev.finishedSig = 0 := by
      rw [List.count_eq_zero]
      intro hmem
      rw [List.mem_flatten] at hmem
      obtain ⟨l, hl, hfin⟩ := hmem
      rw [List.mem_map] at hl
      obtain ⟨p, _, rfl⟩ := hl
      exact finished_not_mem_processRepo _ _ _ _ hfin
    rw [h0]
    rfl
  · rw [gitWorkerRun]
    exact List.getLast?_concat ..

/-- A sample repository environment in which every git command succeeds. -/
def sampleEnv : RepoEnv :=
  ⟨true, Except.ok ⟨0, "main".data, []⟩, Except.ok ⟨0, [], []⟩,
   Except.ok ⟨0, "origin git@example.com:demo (fetch)".data, []⟩,
   Except.ok ⟨0, [], []⟩, Except.ok ⟨0, "Already up to date.".data, []⟩,
   Except.ok ⟨0, [], []⟩, Except.ok ⟨0, [], []⟩, Except.ok ⟨0, [], []⟩,
   "2025-01-01 00:00:00".data⟩

/-- A sample repository. -/
def sampleRepo : Repo := ⟨["home".data, "repos".data, "demo".data], sampleEnv⟩

/-- Witness for C4: the sequential-trace property at a concrete one-element
repository list with operation `pull`. -/
theorem gitWorkerRun_sequential_witness :
    ("pull".data = "pull".data ∨ "pull".data = "push".data) ∧
    ((gitWorkerRun [sampleRepo] ("pull".data)).filter isResultEv
      = ([sampleRepo].enum.map (fun p =>
          (processRepo (p.1 + 1) [sampleRepo].length p.2 ("pull".data)).filter
            isResultEv)).flatten
    ∧ (∀ p ∈ [sampleRepo].enum,
        ((processRepo (p.1 + 1) [sampleRepo].length p.2 ("pull".data)).filter
          isResultEv).length = 1)
    ∧ (gitWorkerRun [sampleRepo] ("pull".data)).count Ev.finishedSig = 1
    ∧ (gitWorkerRun [sampleRepo] ("pull".data)).getLast? = some Ev.finishedSig) :=
  ⟨Or.inl rfl, gitWorkerRun_sequential [sampleRepo] ("pull".data) (Or.inl rfl)⟩

lemma health_trace_cmds (env : RepoEnv) :
    GitCmd.pull ∉ (check_repository_health env).2 ∧
    GitCmd.push ∉ (check_repository_health env).2 ∧
    GitCmd.add ∉ (check_repository_health env).2 ∧
    GitCmd.commit ∉ (check_repository_health env).2 := by
  unfold check_repository_health
  split_ifs <;> (try decide) <;>
    (repeat' split) <;> simp

/-- C5: Health check gates operation dispatch: each repository's event list
starts with the progress signal followed by the health check's command
invocations (which are never a pull or push), and when the health check
reports the repository unhealthy the worker emits exactly one result signal —
an `error_output` of type `health_check_failed` — and runs none of the
pull/push-operation commands on that repository. -/
theorem gitWorkerRun_health_gate (repos : List Repo) (operation : Str)
    (i total : Nat) (r : Repo) :
    (gitWorkerRun repos operation =
      (repos.enum.map (fun p => processRepo (p.1 + 1) repos.length p.2 operation)).flatten
        ++ [Ev.finishedSig])
    ∧ (∃ rest, processRepo i total r operation
        = Ev.progress (progressMsg i total r.parts)
            :: ((check_repository_health r.env).2.map (Ev.ran i) ++ rest))
    ∧ GitCmd.pull ∉ (check_repository_health r.env).2
    ∧ GitCmd.push ∉ (check_repository_health r.env).2
    ∧ ((check_repository_health r.env).1.healthy = false →
        (processRepo i total r operation).filter isResultEv
          = [Ev.error_output
               (healthFailMsg (repoDisplay r.parts) (check_repository_health r.env).1)
               (healthFailInfo r.parts (repoDisplay r.parts)
                 (check_repository_health r.env).1)]
        ∧ (healthFailInfo r.parts (repoDisplay r.parts)
            (check_repository_health r.env).1).analysis.type = "health_check_failed".data
        ∧ Ev.ran i GitCmd.pull ∉ processRepo i total r operation
        ∧ Ev.ran i GitCmd.push ∉ processRepo i total r operation
        ∧ Ev.ran i GitCmd.add ∉ processRepo i total r operation
        ∧ Ev.ran i GitCmd.commit ∉ processRepo i total r operation) := by
  refine ⟨rfl, ?_, (health_trace_cmds r.env).1, (health_trace_cmds r.env).2.1, ?_⟩
  · unfold processRepo
    by_cases hh : (check_repository_health r.env).1.healthy = false <;>
      simp only [hh] <;> split_ifs <;>
      (first
        | exact ⟨_, rfl⟩
        | (rw [List.append_assoc]; exact ⟨_, rfl⟩))
  · intro hh
    have hmem : ∀ c : GitCmd, c ∉ (check_repository_health r.env).2 →
        Ev.ran i c ∉ processRepo i total r operation := by
      intro c hc
      unfold processRepo
      simp only [hh]
      simp [List.mem_append, List.mem_map]
      exact hc
    refine ⟨?_, rfl, ?_, ?_, ?_, ?_⟩
    · unfold processRepo
      simp only [hh]
      simp [List.filter_append, List.filter_cons, filter_result_ran_map,
        isResultEv_progress, isResultEv_error]
    · exact hmem GitCmd.pull (health_trace_cmds r.env).1
    · exact hmem GitCmd.push (health_trace_cmds r.env).2.1
    · exact hmem GitCmd.add (health_trace_cmds r.env).2.2.1
    · exact hmem GitCmd.commit (health_trace_cmds r.env).2.2.2

/-- A repository whose `.git` directory is missing (health check fails). -/
def badRepo : Repo := ⟨["demo".data], { sampleEnv with gitDirExists := false }⟩

/-- Witness for C5: the health gate at a concrete unhealthy repository. -/
theorem gitWorkerRun_health_gate_witness :
    (check_repository_health badRepo.env).1.healthy = false ∧
    ((processRepo 1 1 badRepo ("pull".data)).filter isResultEv
       = [Ev.error_output
            (healthFailMsg (repoDisplay badRepo.parts) (check_repository_health badRepo.env).1)
            (healthFailInfo badRepo.parts (repoDisplay badRepo.parts)
              (check_repository_health badRepo.env).1)]
     ∧ (healthFailInfo badRepo.parts (repoDisplay badRepo.parts)
         (check_repository_health badRepo.env).1).analysis.type = "health_check_failed".data
     ∧ Ev.ran 1 GitCmd.pull ∉ processRepo 1 1 badRepo ("pull".data)
     ∧ Ev.ran 1 GitCmd.push ∉ processRepo 1 1 badRepo ("pull".data)
     ∧ Ev.ran 1 GitCmd.add ∉ processRepo 1 1 badRepo ("pull".data)
     ∧ Ev.ran 1 GitCmd.commit ∉ processRepo 1 1 badRepo ("pull".data)) :=
  ⟨by decide,
   (gitWorkerRun_health_gate [badRepo] ("pull".data) 1 1 badRepo).2.2.2.2 (by decide)⟩

lemma check_uncommitted_trace (env : RepoEnv) :
    (check_uncommitted_changes env).2 = [GitCmd.statusPorcelain] := by
  unfold check_uncommitted_changes
  repeat' split
  all_goals rfl

lemma pyStartsWith_warn (t : Str) :
    pyStartsWith (("⚠ ".data) ++ t) ("⚠".data) = true := rfl

/-- C8: Safe pull skips dirty repositories without touching them: whenever
`check_uncommitted_changes` reports changes (including when the status check
raised), `perform_pull_operation` returns a message beginning with `⚠` and
never invokes `git pull`; `git pull` is invoked only when `has_changes` is
false. -/
theorem perform_pull_skips_dirty (env : RepoEnv) (repo_display : Str) :
    ((check_uncommitted_changes env).1.has_changes = true →
       pyStartsWith (perform_pull_operation env repo_display).1 ("⚠".data) = true
       ∧ GitCmd.pull ∉ (perform_pull_operation env repo_display).2)
    ∧ (GitCmd.pull ∈ (perform_pull_operation env repo_display).2 →
        (check_uncommitted_changes env).1.has_changes = false)
    ∧ (∀ e, env.statusPorcelain = Except.error e →
        (check_uncommitted_changes env).1.has_changes = true) := by
  refine ⟨?_, ?_, ?_⟩
  · intro h
    unfold perform_pull_operation
    simp only [h, if_true]
    constructor
    · rw [List.append_assoc, List.append_assoc]
      exact pyStartsWith_warn _
    · rw [check_uncommitted_trace]
      decide
  · intro hmem
    by_cases h : (check_uncommitted_changes env).1.has_changes = true
    · exfalso
      unfold perform_pull_operation at hmem
      simp only [h, if_true] at hmem
      rw [check_uncommitted_trace] at hmem
      exact absurd hmem (by decide)
    · simpa using h
  · intro e he
    unfold check_uncommitted_changes
    rw [he]

/-- An environment whose `git status --porcelain` reports a modified file. -/
def dirtyEnv : RepoEnv :=
  { sampleEnv with statusPorcelain := Except.ok ⟨0, " M file.txt".data, []⟩ }

/-- Witness for C8: a dirty repository is skipped. -/
theorem perform_pull_skips_dirty_witness :
    (check_uncommitted_changes dirtyEnv).1.has_changes = true ∧
    (pyStartsWith (perform_pull_operation dirtyEnv ("demo".data)).1 ("⚠".data) = true
     ∧ GitCmd.pull ∉ (perform_pull_operation dirtyEnv ("demo".data)).2) :=
  ⟨by decide, (perform_pull_skips_dirty dirtyEnv ("demo".data)).1 (by decide)⟩

/-! ### auto_fix_repository -/

/-- The `fix_result` dict of `GitDiagnostics.auto_fix_repository`. -/
structure FixResult where
  success : Bool
  message : Str
  output : List Str
deriving DecidableEq

/-- Environment for `auto_fix_repository`: outcome of running each argv
vector. -/
abbrev CmdEnv := (List Str) → Except Str CmdResult

/-- The default command loop of `auto_fix_repository` (githubsync.py lines
342-364): run each suggested command in order, appending its transcript to
`output`; stop with `success = False` at the first nonzero return code; an
exception yields the `'Auto-fix error: ...'` message.  Paired with the list
of argv vectors actually invoked. -/
def auto_fix_loop (env : CmdEnv) (error_type : Str) (output : List Str) :
    List Str → FixResult × List (List Str)
  | [] => (⟨true, "Auto-fix completed successfully for ".data ++ error_type, output⟩, [])
  | cmd :: rest =>
    let cmd_parts := pySplitWS cmd
    match env cmd_parts with
    | Except.error e => (⟨false, "Auto-fix error: ".data ++ e, output⟩, [cmd_parts])
    | Except.ok r =>
      let output := output ++ ["$ ".data ++ cmd]
        ++ (if pyStrip r.stdout ≠ [] then [pyStrip r.stdout] else [])
        ++ (if pyStrip r.stderr ≠ [] then ["Error: ".data ++ pyStrip r.stderr] else [])
      if r.returncode ≠ 0 then
        (⟨false, "Auto-fix failed at command: ".data ++ cmd, output⟩, [cmd_parts])
      else
        let rec' := auto_fix_loop env error_type output rest
        (rec'.1, cmd_parts :: rec'.2)

/-- Argv of `git status --porcelain`. -/
def statusArgv : List Str := ["git".data, "status".data, "--porcelain".data]

/-- Argv of the auto-stash command. -/
def stashPushArgv : List Str :=
  ["git".data, "stash".data, "push".data, "-m".data,
   "Auto-stash before pull-rebase".data]

/-- Argv of `git pull --rebase`. -/
def pullRebaseArgv : List Str := ["git".data, "pull".data, "--rebase".data]

/-- Argv of `git stash pop`. -/
def stashPopArgv : List Str := ["git".data, "stash".data, "pop".data]

/-- Argv of `git push`. -/
def pushArgv : List Str := ["git".data, "push".data]

/-- The push step of the non-fast-forward branch (githubsync.py lines
319-340). -/
def nffPush (env : CmdEnv) (output : List Str) (tr : List (List Str)) :
    FixResult × List (List Str) :=
  let output := output ++ ["$ git push".data]
  match env pushArgv with
  | Except.error e => (⟨false, "Auto-fix error: ".data ++ e, output⟩, tr ++ [pushArgv])
  | Except.ok push_result =>
    let output := output
      ++ (if pyStrip push_result.stdout ≠ [] then [pyStrip push_result.stdout] else [])
      ++ (if pyStrip push_result.stderr ≠ [] then
            ["Push stderr: ".data ++ pyStrip push_result.stderr] else [])
    if push_result.returncode = 0 then
      (⟨true, "Successfully resolved non-fast-forward error and pushed changes".data,
        output⟩, tr ++ [pushArgv])
    else
      (⟨false, "Pull --rebase succeeded but push still failed".data, output⟩,
       tr ++ [pushArgv])

/-- The pull-rebase/stash-pop/push tail of the non-fast-forward branch
(githubsync.py lines 285-340).  `stashed` records whether uncommitted changes
were found (and stashed) by the status check. -/
def nffAfterStash (env : CmdEnv) (stashed : Bool) (output : List Str)
    (tr : List (List Str)) : FixResult × List (List Str) :=
  let output := output ++ ["$ git pull --rebase".data]
  match env pullRebaseArgv with
  | Except.error e =>
    (⟨false, "Auto-fix error: ".data ++ e, output⟩, tr ++ [pullRebaseArgv])
  | Except.ok pull_result =>
    let output := output
      ++ (if pyStrip pull_result.stdout ≠ [] then [pyStrip pull_result.stdout] else [])
      ++ (if pyStrip pull_result.stderr ≠ [] then
            ["Pull stderr: ".data ++ pyStrip pull_result.stderr] else [])
    if pull_result.returncode ≠ 0 then
      (⟨false, "Auto-fix failed during git pull --rebase".data, output⟩,
       tr ++ [pullRebaseArgv])
    else if stashed then
      let output := output ++ ["$ git stash pop".data]
      match env stashPopArgv with
      | Except.error e =>
        (⟨false, "Auto-fix error: ".data ++ e, output⟩,
         tr ++ [pullRebaseArgv, stashPopArgv])
      | Except.ok pop_result =>
        let output := output
          ++ (if pyStrip pop_result.stdout ≠ [] then [pyStrip pop_result.stdout] else [])
          ++ (if pop_result.returncode ≠ 0 then
                ["Warning: Could not restore stashed changes automatically".data]
              else [])
        nffPush env output (tr ++ [pullRebaseArgv, stashPopArgv])
    else
      nffPush env output (tr ++ [pullRebaseArgv])

/-- The special non-fast-forward branch of `auto_fix_repository`
(githubsync.py lines 257-340): status check, optional auto-stash, pull with
rebase, optional stash pop, push. -/
def auto_fix_nonfastforward (env : CmdEnv) : FixResult × List (List Str) :=
  let output0 : List Str := ["=== Checking repository status ===".data]
  match env statusArgv with
  | Except.error e => (⟨false, "Auto-fix error: ".data ++ e, output0⟩, [statusArgv])
  | Except.ok status_result =>
    if pyStrip status_result.stdout ≠ [] then
      let output1 := output0
        ++ ["Found uncommitted changes: ".data ++ pyStrip status_result.stdout,
            "$ git stash push -m \x27Auto-stash before pull-rebase\x27".data]
      match env stashPushArgv with
      | Except.error e =>
        (⟨false, "Auto-fix error: ".data ++ e, output1⟩, [statusArgv, stashPushArgv])
      | Except.ok stash_result =>
        let output2 := output1
          ++ (if pyStrip stash_result.stdout ≠ [] then [pyStrip stash_result.stdout]
              else [])
        nffAfterStash env true output2 [statusArgv, stashPushArgv]
    else
      nffAfterStash env false (output0 ++ ["Working directory is clean".data])
        [statusArgv]

/-- `GitDiagnostics.auto_fix_repository` (githubsync.py lines 246-369),
paired with the argv vectors it invokes. -/
def auto_fix_repository (env : CmdEnv) (error_type : Str) (commands : List Str) :
    FixResult × List (List Str) :=
  if error_type = "non_fast_forward".data then auto_fix_nonfastforward env
  else auto_fix_loop env error_type [] commands

lemma auto_fix_loop_success_iff (env : CmdEnv) (et : Str) :
    ∀ (cmds : List Str) (out : List Str),
      (auto_fix_loop env et out cmds).1.success = true ↔
        ∀ c ∈ cmds, ∃ r, env (pySplitWS c) = Except.ok r ∧ r.returncode = 0 := by
  intro cmds
  induction cmds with
  | nil => intro out; simp [auto_fix_loop]
  | cons cmd rest ih =>
    intro out
    unfold auto_fix_loop
    dsimp only
    cases henv : env (pySplitWS cmd) with
    | error e =>
      dsimp only
      constructor
      · intro hfalse; simp at hfalse
      · intro hall
        obtain ⟨r, hr, _⟩ := hall cmd (List.mem_cons_self ..)
        rw [henv] at hr; cases hr
    | ok r =>
      dsimp only
      by_cases hrc : r.returncode ≠ 0
      · rw [if_pos hrc]
        constructor
        · intro hfalse; simp at hfalse
        · intro hall
          obtain ⟨r', hr', hz⟩ := hall cmd (List.mem_cons_self ..)
          rw [henv] at hr'
          injection hr' with hr''
          subst hr''
          exact (hrc hz).elim
      · rw [if_neg hrc]
        dsimp only
        rw [ih]
        push_neg at hrc
        constructor
        · intro hrest c hc
          rcases List.mem_cons.mp hc with rfl | hc'
          · exact ⟨r, henv, hrc⟩
          · exact hrest c hc'
        · intro hall c hc
          exact hall c (List.mem_cons_of_mem _ hc)

lemma auto_fix_loop_stop (env : CmdEnv) (et : Str) :
    ∀ (pre : List Str) (out : List Str) (c : Str) (post : List Str) (r : CmdResult),
      (∀ c' ∈ pre, ∃ r', env (pySplitWS c') = Except.ok r' ∧ r'.returncode = 0) →
      env (pySplitWS c) = Except.ok r → r.returncode ≠ 0 →
        (auto_fix_loop env et out (pre ++ c :: post)).1.success = false
        ∧ (auto_fix_loop env et out (pre ++ c :: post)).1.message
            = "Auto-fix failed at command: ".data ++ c
        ∧ (auto_fix_loop env et out (pre ++ c :: post)).2
            = (pre ++ [c]).map pySplitWS := by
  intro pre
  induction pre with
  | nil =>
    intro out c post r _ hc hrc
    simp only [List.nil_append]
    unfold auto_fix_loop
    dsimp only
    rw [hc]
    dsimp only
    rw [if_pos hrc]
    exact ⟨rfl, rfl, rfl⟩
  | cons p pre' ih =>
    intro out c post r hpre hc hrc
    obtain ⟨rp, hrp, hrpz⟩ := hpre p (List.mem_cons_self ..)
    have hpre' : ∀ c' ∈ pre', ∃ r', env (pySplitWS c') = Except.ok r' ∧ r'.returncode = 0 :=
      fun c' hc' => hpre c' (List.mem_cons_of_mem _ hc')
    simp only [List.cons_append]
    unfold auto_fix_loop
    dsimp only
    rw [hrp]
    dsimp only
    rw [if_neg (by simp [hrpz])]
    dsimp only
    have hrec := ih
      ((out ++ ["$ ".data ++ p] ++ (if pyStrip rp.stdout ≠ [] then [pyStrip rp.stdout] else []))
        ++ (if pyStrip rp.stderr ≠ [] then ["Error: ".data ++ pyStrip rp.stderr] else []))
      c post r hpre' hc hrc
    exact ⟨hrec.1, hrec.2.1, by rw [hrec.2.2]; simp⟩

/-- C6: Auto-fix runs the suggested command list in order and stops at the
first failure: for every error type other than `non_fast_forward`,
`auto_fix_repository` succeeds iff every command returns code zero, and when
some command returns a nonzero code after an all-zero prefix, it reports
failure with a message naming that command, having executed exactly the
prefix and the failing command. -/
theorem auto_fix_stops_at_first_failure (env : CmdEnv) (error_type : Str)
    (commands : List Str) (hty : error_type ≠ "non_fast_forward".data) :
    ((auto_fix_repository env error_type commands).1.success = true ↔
      ∀ c ∈ commands, ∃ r, env (pySplitWS c) = Except.ok r ∧ r.returncode = 0)
    ∧ ∀ pre c post, commands = pre ++ c :: post →
        (∀ c' ∈ pre, ∃ r', env (pySplitWS c') = Except.ok r' ∧ r'.returncode = 0) →
        ∀ r, env (pySplitWS c) = Except.ok r → r.returncode ≠ 0 →
          (auto_fix_repository env error_type commands).1.success = false
          ∧ (auto_fix_repository env error_type commands).1.message
              = "Auto-fix failed at command: ".data ++ c
          ∧ (auto_fix_repository env error_type commands).2
              = (pre ++ [c]).map pySplitWS := by
  have hrepo : auto_fix_repository env error_type commands
      = auto_fix_loop env error_type [] commands := by
    unfold auto_fix_repository
    rw [if_neg hty]
  constructor
  · rw [hrepo]
    exact auto_fix_loop_success_iff env error_type commands []
  · intro pre c post hsplit hpre r hr hrc
    rw [hrepo, hsplit]
    exact auto_fix_loop_stop env error_type pre [] c post r hpre hr hrc

/-- The witness environment for C6: `git fetch origin` succeeds, everything
else returns code 1. -/
def wEnv : CmdEnv := fun argv =>
  if argv = pySplitWS ("git fetch origin".data) then Except.ok ⟨0, [], []⟩
  else Except.ok ⟨1, [], "error: failed".data⟩

/-- Witness for C6: the diverged-branches command list stops at its failing
second command. -/
theorem auto_fix_stops_at_first_failure_witness :
    (auto_fix_repository wEnv ("diverged_branches".data)
        [("git fetch origin".data), ("git pull --rebase".data)]).1.success = false
    ∧ (auto_fix_repository wEnv ("diverged_branches".data)
        [("git fetch origin".data), ("git pull --rebase".data)]).1.message
        = "Auto-fix failed at command: ".data ++ ("git pull --rebase".data)
    ∧ (auto_fix_repository wEnv ("diverged_branches".data)
        [("git fetch origin".data), ("git pull --rebase".data)]).2
        = ([("git fetch origin".data)] ++ [("git pull --rebase".data)]).map pySplitWS :=
  (auto_fix_stops_at_first_failure wEnv ("diverged_branches".data)
      [("git fetch origin".data), ("git pull --rebase".data)] (by decide)).2
    [("git fetch origin".data)] ("git pull --rebase".data) [] rfl
    (by
      intro c' hc'
      simp only [List.mem_singleton] at hc'
      subst hc'
      exact ⟨⟨0, [], []⟩, rfl, rfl⟩)
    ⟨1, [], "error: failed".data⟩ rfl (by decide)

/-! ## String lemmas shared by the text-transformation proofs -/

lemma pySplitChar_ne_nil (c : Char) (s : Str) : pySplitChar c s ≠ [] := by
  induction s with
  | nil => simp [pySplitChar]
  | cons d rest ih =>
    unfold pySplitChar
    match h : pySplitChar c rest with
    | [] => exact absurd h ih
    | r :: rs => split_ifs <;> simp

lemma pySplitChar_not_mem (c : Char) (s : Str) :
    ∀ l ∈ pySplitChar c s, c ∉ l := by
  induction s with
  | nil => simp [pySplitChar]
  | cons d rest ih =>
    unfold pySplitChar
    match h : pySplitChar c rest with
    | [] => exact absurd h (pySplitChar_ne_nil c rest)
    | r :: rs =>
      dsimp only
      have hr : ∀ l ∈ r :: rs, c ∉ l := h ▸ ih
      by_cases hd : d = c
      · simp only [hd, if_pos rfl]
        intro l hl
        rcases List.mem_cons.mp hl with rfl | hl'
        · simp
        · exact hr l hl'
      · rw [if_neg hd]
        intro l hl
        rcases List.mem_cons.mp hl with rfl | hl'
        · intro hc
          rcases List.mem_cons.mp hc with rfl | hc'
          · exact hd rfl
          · exact hr r (List.mem_cons_self ..) hc'
        · exact hr l (List.mem_cons_of_mem _ hl')

lemma pySplitChar_of_not_mem (c : Char) (l : Str) (h : c ∉ l) :
    pySplitChar c l = [l] := by
  induction l with
  | nil => rfl
  | cons d rest ih =>
    have hd : d ≠ c := fun hdc => h (hdc ▸ List.mem_cons_self ..)
    have hrest : c ∉ rest := fun hc => h (List.mem_cons_of_mem _ hc)
    unfold pySplitChar
    rw [ih hrest]
    dsimp only
    rw [if_neg hd]

lemma pySplitChar_append_cons (c : Char) (l r : Str) (h : c ∉ l) :
    pySplitChar c (l ++ c :: r) = l :: pySplitChar c r := by
  induction l with
  | nil =>
    simp only [List.nil_append]
    conv_lhs => rw [pySplitChar]
    cases hr : pySplitChar c r with
    | nil => exact absurd hr (pySplitChar_ne_nil c r)
    | cons r0 rs =>
      dsimp only
      rw [if_pos rfl]
  | cons d l' ih =>
    have hd : d ≠ c := fun hdc => h (hdc ▸ List.mem_cons_self ..)
    have hl' : c ∉ l' := fun hc => h (List.mem_cons_of_mem _ hc)
    simp only [List.cons_append]
    conv_lhs => rw [pySplitChar]
    rw [ih hl']
    dsimp only
    rw [if_neg hd]

lemma pySplitChar_pyJoin (c : Char) (ls : List Str)
    (h : ∀ l ∈ ls, c ∉ l) (hne : ls ≠ []) :
    pySplitChar c (pyJoin [c] ls) = ls := by
  induction ls with
  | nil => exact absurd rfl hne
  | cons l rest ih =>
    match rest with
    | [] =>
      exact pySplitChar_of_not_mem c l (h l (List.mem_cons_self ..))
    | m :: rest' =>
      have hl : c ∉ l := h l (List.mem_cons_self ..)
      have hrest : ∀ x ∈ m :: rest', c ∉ x := fun x hx => h x (List.mem_cons_of_mem _ hx)
      show pySplitChar c (l ++ [c] ++ pyJoin [c] (m :: rest')) = _
      rw [List.append_assoc, List.singleton_append,
        pySplitChar_append_cons c l _ hl, ih hrest (by simp)]

lemma find?_pred_congr {α : Type} (p q : α → Bool) :
    ∀ (l : List α), (∀ a ∈ l, p a = q a) → l.find? p = l.find? q := by
  intro l
  induction l with
  | nil => intro _; rfl
  | cons a rest ih =>
    intro h
    rw [List.find?_cons, List.find?_cons, h a (List.mem_cons_self ..)]
    cases q a
    · exact ih (fun x hx => h x (List.mem_cons_of_mem _ hx))
    · rfl

lemma length_sub_dropWhile (p : Char → Bool) (l : Str) :
    l.length - (l.dropWhile p).length = (l.takeWhile p).length := by
  have h := List.takeWhile_append_dropWhile (p := p) (l := l)
  have := congrArg List.length h
  rw [List.length_append] at this
  omega

lemma drop_takeWhile_length (p : Char → Bool) (l : Str) :
    l.drop (l.takeWhile p).length = l.dropWhile p := by
  calc l.drop (l.takeWhile p).length
      = (l.takeWhile p ++ l.dropWhile p).drop (l.takeWhile p).length := by
        rw [List.takeWhile_append_dropWhile]
    _ = l.dropWhile p := List.drop_left ..

lemma takeWhile_dropWhile_nil (p : Char → Bool) (l : Str) :
    (l.dropWhile p).takeWhile p = [] := by
  induction l with
  | nil => rfl
  | cons c rest ih =>
    rw [List.dropWhile_cons]
    split_ifs with h
    · exact ih
    · rw [List.takeWhile_cons, if_neg h]

lemma pyStrip_cons_ws (c : Char) (l : Str) (h : isPyWS c = true) :
    pyStrip (c :: l) = pyStrip l := by
  unfold pyStrip pyLstrip pyRstrip
  rw [List.reverse_cons]
  by_cases hd : (l.reverse.dropWhile isPyWS) = []
  · rw [List.dropWhile_append]
    simp only [hd, List.isEmpty_nil, if_true]
    simp [h, hd]
  · rw [List.dropWhile_append]
    have : (l.reverse.dropWhile isPyWS).isEmpty = false := by
      simpa [List.isEmpty_iff] using hd
    rw [this]
    simp [h, List.reverse_append]

lemma pyStrip_drop_spaces :
    ∀ (m : Nat) (l : Str), m ≤ (l.takeWhile (fun c => c == ' ')).length →
      pyStrip (l.drop m) = pyStrip l := by
  intro m
  induction m with
  | zero => intro l _; rfl
  | succ m' ih =>
    intro l hm
    match l with
    | [] => simp at hm
    | c :: l' =>
      rw [List.takeWhile_cons] at hm
      by_cases hc : (c == ' ') = true
      · rw [if_pos hc] at hm
        simp only [List.length_cons, Nat.succ_le_succ_iff] at hm
        have hcs : c = ' ' := by simpa using hc
        rw [List.drop_succ_cons, ih l' hm, pyStrip_cons_ws c l' (by rw [hcs]; decide)]
      · rw [if_neg hc] at hm
        simp at hm

/-! ## remove_prepended_spaces (rps.py)

`RemovePrependedSpacesApp.remove_prepended_spaces` (rps.py lines 151-194):
count the leading spaces `N` of the first non-blank line, then remove
`min(N, leading spaces)` from every non-blank line, keeping blank lines
as they are. -/

/-- The per-line processing of the loop in rps.py lines 183-192. -/
def processLine (spaces_to_remove : Nat) (line : Str) : Str :=
  if !(pyStrip line).isEmpty then
    let current_spaces := line.length - (line.dropWhile (fun c => c == ' ')).length
    line.drop (min spaces_to_remove current_spaces)
  else line

/-- `remove_prepended_spaces` (rps.py lines 151-194). -/
def remove_prepended_spaces (text : Str) : Str :=
  if pyStrip text = [] then text
  else
    let lines := pySplitChar '\n' text
    if lines = [] then text
    else
      match lines.find? (fun line => !(pyStrip line).isEmpty) with
      | none => text
      | some first_line =>
        let spaces_to_remove :=
          first_line.length - (first_line.dropWhile (fun c => c == ' ')).length
        if spaces_to_remove = 0 then text
        else pyJoin ("\n".data) (lines.map (processLine spaces_to_remove))

lemma processLine_blank_pres (N : Nat) (line : Str) :
    (!(pyStrip (processLine N line)).isEmpty) = (!(pyStrip line).isEmpty) := by
  unfold processLine
  by_cases hb : (!(pyStrip line).isEmpty) = true
  · rw [if_pos hb]
    dsimp only
    rw [pyStrip_drop_spaces _ line
      (by rw [← length_sub_dropWhile]; exact min_le_right ..)]
  · rw [if_neg hb]

lemma rps_fixed_point (N : Nat) (lines : List Str) (l0 : Str)
    (hlinesne : lines ≠ [])
    (hnonl : ∀ l ∈ lines, '\n' ∉ l)
    (hfind : lines.find? (fun line => !(pyStrip line).isEmpty) = some l0)
    (hcur : l0.length - (l0.dropWhile (fun c => c == ' ')).length = N) :
    remove_prepended_spaces (pyJoin ("\n".data) (lines.map (processLine N)))
      = pyJoin ("\n".data) (lines.map (processLine N)) := by
  have hl0p : (!(pyStrip l0).isEmpty) = true :=
    @List.find?_some Str (fun line => !(pyStrip line).isEmpty) l0 lines hfind
  have hnoNL' : ∀ l' ∈ lines.map (processLine N), '\n' ∉ l' := by
    intro l' hl'
    obtain ⟨l, hl, rfl⟩ := List.mem_map.mp hl'
    unfold processLine
    split_ifs
    · dsimp only
      intro hmem
      exact hnonl l hl (List.mem_of_mem_drop hmem)
    · exact hnonl l hl
  have hmapne : lines.map (processLine N) ≠ [] := by
    simpa [List.map_eq_nil_iff] using hlinesne
  have hsplit : pySplitChar '\n' (pyJoin ("\n".data) (lines.map (processLine N)))
      = lines.map (processLine N) :=
    pySplitChar_pyJoin '\n' _ hnoNL' hmapne
  have hfind' : (lines.map (processLine N)).find? (fun line => !(pyStrip line).isEmpty)
      = some (processLine N l0) := by
    rw [List.find?_map]
    simp only [Function.comp_def]
    rw [find?_pred_congr (fun a => !(pyStrip (processLine N a)).isEmpty)
        (fun line => !(pyStrip line).isEmpty) lines
        (fun a _ => processLine_blank_pres N a),
      hfind]
    rfl
  have hl0cur : processLine N l0 = l0.dropWhile (fun c => c == ' ') := by
    unfold processLine
    rw [if_pos hl0p]
    dsimp only
    rw [hcur, Nat.min_self]
    have hN2 : N = (l0.takeWhile (fun c => c == ' ')).length := by
      rw [← hcur, length_sub_dropWhile]
    rw [hN2, drop_takeWhile_length]
  have hcur0 : (processLine N l0).length
      - ((processLine N l0).dropWhile (fun c => c == ' ')).length = 0 := by
    rw [length_sub_dropWhile, hl0cur, takeWhile_dropWhile_nil]
    rfl
  by_cases hy : pyStrip (pyJoin ("\n".data) (lines.map (processLine N))) = []
  · unfold remove_prepended_spaces
    rw [if_pos hy]
  · unfold remove_prepended_spaces
    rw [if_neg hy]
    dsimp only
    rw [hsplit, if_neg hmapne, hfind']
    dsimp only
    rw [if_pos hcur0]

/-- C2: Leading-space removal is idempotent: applying
`remove_prepended_spaces` twice equals applying it once. -/
theorem remove_prepended_spaces_idempotent (text : Str) :
    remove_prepended_spaces (remove_prepended_spaces text)
      = remove_prepended_spaces text := by
  by_cases h1 : pyStrip text = []
  · have hfix : remove_prepended_spaces text = text := by
      unfold remove_prepended_spaces
      rw [if_pos h1]
    rw [hfix]
    exact hfix
  · cases hfind : (pySplitChar '\n' text).find? (fun line => !(pyStrip line).isEmpty) with
    | none =>
      have hfix : remove_prepended_spaces text = text := by
        unfold remove_prepended_spaces
        rw [if_neg h1]
        dsimp only
        rw [if_neg (pySplitChar_ne_nil '\n' text), hfind]
      rw [hfix]
      exact hfix
    | some l0 =>
      by_cases hN : l0.length - (l0.dropWhile (fun c => c == ' ')).length = 0
      · have hfix : remove_prepended_spaces text = text := by
          unfold remove_prepended_spaces
          rw [if_neg h1]
          dsimp only
          rw [if_neg (pySplitChar_ne_nil '\n' text), hfind]
          dsimp only
          rw [if_pos hN]
        rw [hfix]
        exact hfix
      · have hrps : remove_prepended_spaces text
            = pyJoin ("\n".data) ((pySplitChar '\n' text).map
                (processLine (l0.length - (l0.dropWhile (fun c => c == ' ')).length))) := by
          unfold remove_prepended_spaces
          rw [if_neg h1]
          dsimp only
          rw [if_neg (pySplitChar_ne_nil '\n' text), hfind]
          dsimp only
          rw [if_neg hN]
        rw [hrps]
        exact rps_fixed_point _ (pySplitChar '\n' text) l0
          (pySplitChar_ne_nil '\n' text) (pySplitChar_not_mem '\n' text) hfind rfl

/-! ## marp2html_enhanced : content detection and HTML generation -/

/-- A fenced code block collected by `detect_content_type`. -/
structure CodeBlock where
  language : Str
  lines : List Str
deriving DecidableEq

/-- An image reference collected by `detect_content_type`. -/
structure ImageInfo where
  alt : Str
  src : Str
deriving DecidableEq

/-- The result dict of `detect_content_type`. -/
structure ContentInfo where
  has_code_block : Bool
  has_list : Bool
  has_image : Bool
  code_blocks : List CodeBlock
  list_items : List Str
  images : List ImageInfo
deriving DecidableEq

/-- The loop state of `detect_content_type`: the result being built plus the
code-block tracking state. -/
structure DetectState where
  result : ContentInfo
  in_code_block : Bool
  current_code_block : CodeBlock
deriving DecidableEq

/-- `re.match` of the pattern `!\[([^\]]*)\]\(([^)]+)\)` against the start of
a line, returning the two capture groups (alt text, image path). -/
def parseImageMatch (ls : Str) : Option (Str × Str) :=
  if pyStartsWith ls ("![".data) then
    let rest1 := ls.drop 2
    let alt := rest1.takeWhile (fun c => !(c == ']'))
    match rest1.drop alt.length with
    | ']' :: '(' :: rest3 =>
      let path := rest3.takeWhile (fun c => !(c == ')'))
      if path ≠ [] then
        match rest3.drop path.length with
        | ')' :: _ => some (alt, path)
        | _ => none
      else none
    | _ => none
  else none

/-- One iteration of the line loop of `detect_content_type`
(marp2html_enhanced.py lines 267-303). -/
def detectStep (st : DetectState) (line : Str) : DetectState :=
  let line_stripped := pyStrip line
  if pyStartsWith line_stripped ("```".data) then
    if !st.in_code_block then
      { st with
          in_code_block := true
          result := { st.result with has_code_block := true }
          current_code_block := ⟨pyStrip (line_stripped.drop 3), []⟩ }
    else
      { st with
          in_code_block := false
          result := { st.result with
            code_blocks := st.result.code_blocks ++ [st.current_code_block] }
          current_code_block := ⟨[], []⟩ }
  else if st.in_code_block then
    { st with current_code_block :=
        ⟨st.current_code_block.language, st.current_code_block.lines ++ [line]⟩ }
  else if pyStartsWith line_stripped ("- ".data) then
    let list_item := pyStrip (line_stripped.drop 2)
    if list_item ≠ [] then
      { st with result := { st.result with
          has_list := true
          list_items := st.result.list_items ++ [list_item] } }
    else
      { st with result := { st.result with has_list := true } }
  else if pyStartsWith line_stripped ("![".data) then
    match parseImageMatch line_stripped with
    | some (alt, path) =>
      { st with result := { st.result with
          has_image := true
          images := st.result.images
            ++ [⟨if alt = [] then "Demo image".data else alt, path⟩] } }
    | none => st
  else st

/-- `MarpToHtmlConverter.detect_content_type` (marp2html_enhanced.py lines
235-305). -/
def detect_content_type (content : Str) : ContentInfo :=
  ((pySplitChar '\n' content).foldl detectStep
    ⟨⟨false, false, false, [], [], []⟩, false, ⟨[], []⟩⟩).result

/-- The HTML escaping applied to each code line (marp2html_enhanced.py lines
354-357): `&`, `<`, `>`, `"` in that order. -/
def escapeHtml (code_line : Str) : Str :=
  pyReplaceChar '"' ("&quot;".data)
    (pyReplaceChar '>' ("&gt;".data)
      (pyReplaceChar '<' ("&lt;".data)
        (pyReplaceChar '&' ("&amp;".data) code_line)))

/-- The `html_parts` list built by `parse_marp_to_html`
(marp2html_enhanced.py lines 307-388). -/
def htmlParts (left_percentage : Nat) (content : Str) : List Str :=
  let content_info := detect_content_type content
  let right_percentage := 100 - left_percentage
  ["<div style=\"display: flex; gap: 0.5em; align-items: stretch;\">".data]
  ++ ["  <div style=\"flex: 0 0 ".data ++ natToStr left_percentage
        ++ "%; font-size: 1em;\">".data]
  ++ (if content_info.has_code_block then
        content_info.code_blocks.flatMap (fun code_block =>
          ["    <pre style=\"background-color: #f4f4f4; padding: 1em; border-radius: 5px; overflow-x: auto; margin: 0.5em 0;\">".data]
          ++ [if code_block.language ≠ [] then
                "      <code class=\"language-".data ++ code_block.language
                  ++ "\" style=\"font-family: \x27Courier New\x27, monospace; font-size: 0.9em; line-height: 1.4;\">".data
              else
                "      <code style=\"font-family: \x27Courier New\x27, monospace; font-size: 0.9em; line-height: 1.4;\">".data]
          ++ code_block.lines.map escapeHtml
          ++ ["      </code>".data, "    </pre>".data])
      else [])
  ++ (if content_info.has_list then
        ["    <ul style=\"margin: 0.5em 0;\">".data]
        ++ content_info.list_items.map
            (fun item => "      <li>".data ++ item ++ "</li>".data)
        ++ ["    </ul>".data]
      else [])
  ++ (if ¬content_info.has_code_block ∧ ¬content_info.has_list then
        ["    <p style=\"color: #666; font-style: italic;\">No lists or code blocks detected in the input.</p>".data]
      else [])
  ++ ["  </div>".data]
  ++ ["  <div style=\"flex: 0 0 ".data ++ natToStr right_percentage
        ++ "%; display: flex; justify-content: center; align-items: center; flex-direction: column; gap: 1em;\">".data]
  ++ (if content_info.has_image then
        content_info.images.map (fun image =>
          "    <img src=\"".data ++ image.src ++ "\" alt=\"".data ++ image.alt
            ++ "\" style=\"max-width: 100%; height: auto; border-radius: 5px;\">".data)
      else
        ["    <div style=\"color: #ccc; font-style: italic; text-align: center;\">No images detected</div>".data])
  ++ ["  </div>".data, "</div>".data]

/-- `MarpToHtmlConverter.parse_marp_to_html` (marp2html_enhanced.py lines
307-388). -/
def parse_marp_to_html (left_percentage : Nat) (content : Str) : Str :=
  pyJoin ("\n".data) (htmlParts left_percentage content)

/-- Invariant of the detection loop: non-empty collections imply the
corresponding flag, and being inside a block implies the code flag. -/
def DetectInv (st : DetectState) : Prop :=
  (st.result.code_blocks ≠ [] → st.result.has_code_block = true)
  ∧ (st.in_code_block = true → st.result.has_code_block = true)
  ∧ (st.result.list_items ≠ [] → st.result.has_list = true)
  ∧ (st.result.images ≠ [] → st.result.has_image = true)

lemma detectStep_inv (st : DetectState) (line : Str) (h : DetectInv st) :
    DetectInv (detectStep st line) := by
  obtain ⟨h1, h2, h3, h4⟩ := h
  unfold detectStep DetectInv
  dsimp only
  split_ifs <;> (try split) <;>
    (refine ⟨?_, ?_, ?_, ?_⟩ <;> intro hx <;> simp_all)

lemma detect_inv (content : Str) :
    (detect_content_type content).code_blocks ≠ []
      → (detect_content_type content).has_code_block = true := by
  unfold detect_content_type
  have : ∀ (ls : List Str) (st : DetectState), DetectInv st →
      DetectInv (ls.foldl detectStep st) := by
    intro ls
    induction ls with
    | nil => intro st h; exact h
    | cons l rest ih => intro st h; exact ih _ (detectStep_inv st l h)
  exact (this (pySplitChar '\n' content) _ (by exact ⟨by simp, by simp, by simp, by simp⟩)).1

lemma detect_inv_list (content : Str) :
    (detect_content_type content).list_items ≠ []
      → (detect_content_type content).has_list = true := by
  unfold detect_content_type
  have : ∀ (ls : List Str) (st : DetectState), DetectInv st →
      DetectInv (ls.foldl detectStep st) := by
    intro ls
    induction ls with
    | nil => intro st h; exact h
    | cons l rest ih => intro st h; exact ih _ (detectStep_inv st l h)
  exact (this (pySplitChar '\n' content) _ (by exact ⟨by simp, by simp, by simp, by simp⟩)).2.2.1

lemma detect_inv_image (content : Str) :
    (detect_content_type content).images ≠ []
      → (detect_content_type content).has_image = true := by
  unfold detect_content_type
  have : ∀ (ls : List Str) (st : DetectState), DetectInv st →
      DetectInv (ls.foldl detectStep st) := by
    intro ls
    induction ls with
    | nil => intro st h; exact h
    | cons l rest ih => intro st h; exact ih _ (detectStep_inv st l h)
  exact (this (pySplitChar '\n' content) _ (by exact ⟨by simp, by simp, by simp, by simp⟩)).2.2.2

lemma not_mem_pyReplaceChar_self (c : Char) (new : Str) (hnew : c ∉ new) :
    ∀ (s : Str), c ∉ pyReplaceChar c new s := by
  intro s
  induction s with
  | nil => simp [pyReplaceChar]
  | cons d rest ih =>
    unfold pyReplaceChar
    by_cases hd : d = c
    · rw [if_pos hd]
      intro hmem
      rcases List.mem_append.mp hmem with hm | hm
      · exact hnew hm
      · exact ih hm
    · rw [if_neg hd]
      intro hmem
      rcases List.mem_append.mp hmem with hm | hm
      · simp at hm; exact hd (hm.symm)
      · exact ih hm

lemma not_mem_pyReplaceChar_pres (c c' : Char) (new : Str) (hnew : c ∉ new) :
    ∀ (s : Str), c ∉ s → c ∉ pyReplaceChar c' new s := by
  intro s
  induction s with
  | nil => intro _; simp [pyReplaceChar]
  | cons d rest ih =>
    intro hs
    have hd : c ≠ d := fun hcd => hs (hcd ▸ List.mem_cons_self ..)
    have hrest : c ∉ rest := fun hc => hs (List.mem_cons_of_mem _ hc)
    unfold pyReplaceChar
    split_ifs
    · intro hmem
      rcases List.mem_append.mp hmem with hm | hm
      · exact hnew hm
      · exact ih hrest hm
    · intro hmem
      rcases List.mem_append.mp hmem with hm | hm
      · simp at hm; exact hd hm
      · exact ih hrest hm

lemma escapeHtml_no_raw (line : Str) :
    '<' ∉ escapeHtml line ∧ '>' ∉ escapeHtml line ∧ '"' ∉ escapeHtml line := by
  unfold escapeHtml
  refine ⟨?_, ?_, ?_⟩
  · apply not_mem_pyReplaceChar_pres _ _ _ (by decide)
    apply not_mem_pyReplaceChar_pres _ _ _ (by decide)
    exact not_mem_pyReplaceChar_self '<' _ (by decide) _
  · apply not_mem_pyReplaceChar_pres _ _ _ (by decide)
    exact not_mem_pyReplaceChar_self '>' _ (by decide) _
  · exact not_mem_pyReplaceChar_self '"' _ (by decide) _

/-- C10: Code-block lines are HTML-escaped in the enhanced converter's
output: every line of every collected code block appears in the `html_parts`
list joined by `parse_marp_to_html` with the `&`, `<`, `>`, `"` substitutions
applied in that order — hence with no raw `<`, `>` or `"` — while list items
and image paths are inserted verbatim without escaping. -/
theorem parse_marp_escapes_code (left_percentage : Nat) (content : Str) :
    (∀ cb ∈ (detect_content_type content).code_blocks, ∀ line ∈ cb.lines,
       escapeHtml line ∈ htmlParts left_percentage content
       ∧ escapeHtml line
           = pyReplaceChar '"' ("&quot;".data)
               (pyReplaceChar '>' ("&gt;".data)
                 (pyReplaceChar '<' ("&lt;".data)
                   (pyReplaceChar '&' ("&amp;".data) line)))
       ∧ '<' ∉ escapeHtml line ∧ '>' ∉ escapeHtml line ∧ '"' ∉ escapeHtml line)
    ∧ (∀ item ∈ (detect_content_type content).list_items,
       ("      <li>".data ++ item ++ "</li>".data) ∈ htmlParts left_percentage content)
    ∧ (∀ image ∈ (detect_content_type content).images,
       ("    <img src=\"".data ++ image.src ++ "\" alt=\"".data ++ image.alt
          ++ "\" style=\"max-width: 100%; height: auto; border-radius: 5px;\">".data)
         ∈ htmlParts left_percentage content)
    ∧ parse_marp_to_html left_percentage content
        = pyJoin ("\n".data) (htmlParts left_percentage content) := by
  refine ⟨?_, ?_, ?_, rfl⟩
  · intro cb hcb line hline
    refine ⟨?_, rfl, (escapeHtml_no_raw line).1, (escapeHtml_no_raw line).2.1,
      (escapeHtml_no_raw line).2.2⟩
    have hflag := detect_inv content (List.ne_nil_of_mem hcb)
    unfold htmlParts
    dsimp only
    rw [if_pos hflag]
    apply List.mem_append_left
    apply List.mem_append_left
    apply List.mem_append_left
    apply List.mem_append_left
    apply List.mem_append_left
    apply List.mem_append_left
    apply List.mem_append_right
    apply List.mem_flatMap.mpr
    refine ⟨cb, hcb, ?_⟩
    apply List.mem_append_left
    apply List.mem_append_right
    exact List.mem_map.mpr ⟨line, hline, rfl⟩
  · intro item hitem
    have hflag := detect_inv_list content (List.ne_nil_of_mem hitem)
    unfold htmlParts
    dsimp only
    rw [if_pos hflag]
    apply List.mem_append_left
    apply List.mem_append_left
    apply List.mem_append_left
    apply List.mem_append_left
    apply List.mem_append_left
    apply List.mem_append_right
    apply List.mem_append_left
    apply List.mem_append_right
    exact List.mem_map.mpr ⟨item, hitem, rfl⟩
  · intro image himage
    have hflag := detect_inv_image content (List.ne_nil_of_mem himage)
    unfold htmlParts
    dsimp only
    rw [if_pos hflag]
    apply List.mem_append_left
    apply List.mem_append_right
    exact List.mem_map.mpr ⟨image, himage, rfl⟩

/-! ## codesplitter : splitting code into columns and joining back -/

/-- The newline normalization applied by both `split_code_into_columns` and
`join_code_columns`: `.replace('\r\n', '\n').replace('\r', '\n')` (every CRLF
then every remaining CR becomes LF; the fused scan below performs both
substitutions in one pass). -/
def normalizeNewlines : Str → Str
  | [] => []
  | '\r' :: '\n' :: rest => '\n' :: normalizeNewlines rest
  | '\r' :: rest => '\n' :: normalizeNewlines rest
  | c :: rest => c :: normalizeNewlines rest

/-- The `while lines and not lines[-1].strip(): lines.pop()` loop. -/
def popTrailingBlanks (lines : List Str) : List Str :=
  (lines.reverse.dropWhile (fun l => (pyStrip l).isEmpty)).reverse

/-- `re.match(r'^\s*\d+:\s*', line)`: optional whitespace, at least one
digit, then a colon (the trailing `\s*` always matches). -/
def matchLineNumPat (line : Str) : Bool :=
  let t := line.dropWhile isPyWS
  let ds := t.takeWhile (fun c => c.isDigit)
  !ds.isEmpty && pyStartsWith (t.drop ds.length) (":".data)

/-- `re.sub(r'^\s*\d+:\s*', '', line)` when the pattern matches: drop the
leading whitespace, the digits, the colon, and the whitespace after it. -/
def removeLineNumber (line : Str) : Str :=
  ((((line.dropWhile isPyWS).dropWhile (fun c => c.isDigit)).drop 1).dropWhile isPyWS)

/-- The column-slicing loop of `split_code_into_columns` (codesplitter.py
lines 303-313): `k` columns remain, the current column index is `col` and the
current slice starts at `start`. -/
def buildColumnsAux {α : Type} (lines : List α) (lines_per_column remainder : Nat) :
    Nat → Nat → Nat → List (List α)
  | 0, _, _ => []
  | k + 1, col, start =>
    let column_size := lines_per_column + (if col < remainder then 1 else 0)
    ((lines.drop start).take column_size)
      :: buildColumnsAux lines lines_per_column remainder k (col + 1) (start + column_size)

/-- The column partition of `split_code_into_columns` (codesplitter.py lines
297-313): distribute the lines over `num_columns` contiguous slices, the
first `len(lines) % num_columns` of them one line longer. -/
def computeColumns {α : Type} (lines : List α) (num_columns : Nat) : List (List α) :=
  buildColumnsAux lines (lines.length / num_columns) (lines.length % num_columns)
    num_columns 0 0

/-- One rendered cell of the side-by-side output (codesplitter.py lines
326-333): the line padded to `column_width`, or spaces for a shorter
column. -/
def splitCell (column_width row : Nat) (column : List Str) : Str :=
  if row < column.length then pyLjust column_width (column.getD row [])
  else List.replicate column_width ' '

/-- One rendered output row (codesplitter.py lines 324-336): the cells joined
with `|`, right-stripped. -/
def splitRow (column_width : Nat) (columns : List (List Str)) (row : Nat) : Str :=
  pyRstrip (pyJoin ("|".data) (columns.map (splitCell column_width row)))

/-- `CodeSplitterApp.split_code_into_columns` (codesplitter.py lines
268-338). -/
def split_code_into_columns (code : Str) (num_columns : Nat)
    (add_line_numbers : Bool) : Str :=
  let lines := popTrailingBlanks (pySplitChar '\n' (normalizeNewlines code))
  if lines = [] then "No code to split".data
  else
    let lines :=
      if add_line_numbers then
        let line_num_width := (natToStr lines.length).length
        lines.enum.map (fun p =>
          pyRjust line_num_width (natToStr (p.1 + 1)) ++ ": ".data ++ p.2)
      else lines
    if num_columns = 1 then pyJoin ("\n".data) lines
    else
      let columns := computeColumns lines num_columns
      let max_line_length := listMax (lines.map List.length)
      let column_width := max (max_line_length + 2) 40
      let max_column_height := listMax (columns.map List.length)
      let result_lines :=
        (List.range max_column_height).map (splitRow column_width columns)
      pyJoin ("\n".data) result_lines

/-- Parsing of one line of the pasted split output (codesplitter.py lines
236-244): split on `|` and right-strip each part, or a single right-stripped
column for a line without separator. -/
def joinParseRow (line : Str) : List Str :=
  if pyContains line ("|".data) then (pySplitChar '|' line).map pyRstrip
  else [pyRstrip line]

/-- The cell selection of the reconstruction loop (codesplitter.py lines
255-264): keep a cell whose index exists and whose content is not blank,
removing a line-number prefix when present. -/
def joinPick (col_idx : Nat) (row : List Str) : Option Str :=
  if col_idx < row.length ∧ !(pyStrip (row.getD col_idx [])).isEmpty then
    some (if matchLineNumPat (row.getD col_idx [])
          then removeLineNumber (row.getD col_idx [])
          else row.getD col_idx [])
  else none

/-- `CodeSplitterApp.join_code_columns` (codesplitter.py lines 207-266). -/
def join_code_columns (split_code : Str) : Str :=
  let lines := popTrailingBlanks (pySplitChar '\n' (normalizeNewlines split_code))
  if lines = [] then "No code to join".data
  else if !(pyContains split_code ("|".data)) then
    pyJoin ("\n".data) (lines.map (fun line =>
      if matchLineNumPat line then removeLineNumber line else line))
  else
    let all_columns := lines.map joinParseRow
    if all_columns = [] then "No valid columns found".data
    else
      let max_columns := listMax (all_columns.map List.length)
      let result_lines := (List.range max_columns).flatMap (fun col_idx =>
        all_columns.filterMap (joinPick col_idx))
      pyJoin ("\n".data) result_lines

/-- Total size of the slices that `buildColumnsAux` assigns to `k` columns
starting at column index `col`. -/
def sumSizes (lines_per_column remainder : Nat) : Nat → Nat → Nat
  | 0, _ => 0
  | k + 1, col =>
    (lines_per_column + (if col < remainder then 1 else 0))
      + sumSizes lines_per_column remainder k (col + 1)

lemma buildColumnsAux_length {α : Type} (lines : List α) (lpc rem : Nat) :
    ∀ (k col start : Nat), (buildColumnsAux lines lpc rem k col start).length = k := by
  intro k
  induction k with
  | zero => intro col start; rfl
  | succ k' ih =>
    intro col start
    unfold buildColumnsAux
    dsimp only
    rw [List.length_cons, ih]

lemma buildColumnsAux_flatten {α : Type} (lines : List α) (lpc rem : Nat) :
    ∀ (k col start : Nat),
      (buildColumnsAux lines lpc rem k col start).flatten
        = (lines.drop start).take (sumSizes lpc rem k col) := by
  intro k
  induction k with
  | zero => intro col start; rfl
  | succ k' ih =>
    intro col start
    unfold buildColumnsAux sumSizes
    dsimp only
    rw [List.flatten_cons,
      ih (col + 1) (start + (lpc + if col < rem then 1 else 0))]
    conv_rhs => rw [List.take_add]
    congr 1
    congr 1
    exact (List.drop_drop ..).symm

lemma sumSizes_formula (lpc rem : Nat) :
    ∀ (k col : Nat), sumSizes lpc rem k col
      = k * lpc + (min rem (col + k) - min rem col) := by
  intro k
  induction k with
  | zero => intro col; simp [sumSizes]
  | succ k' ih =>
    intro col
    unfold sumSizes
    rw [ih (col + 1), Nat.succ_mul]
    by_cases h : col < rem
    · rw [if_pos h]
      omega
    · rw [if_neg h]
      omega

lemma buildColumnsAux_getD {α : Type} (lines : List α) (lpc rem : Nat) :
    ∀ (k col start : Nat),
      start + sumSizes lpc rem k col ≤ lines.length →
      ∀ i, i < k →
        ((buildColumnsAux lines lpc rem k col start).getD i []).length
          = lpc + (if col + i < rem then 1 else 0) := by
  intro k
  induction k with
  | zero => intro col start _ i hi; omega
  | succ k' ih =>
    intro col start hbound i hi
    have hsum : sumSizes lpc rem (k' + 1) col
        = (lpc + if col < rem then 1 else 0) + sumSizes lpc rem k' (col + 1) := rfl
    unfold buildColumnsAux
    dsimp only
    match i with
    | 0 =>
      rw [List.getD_cons_zero, List.length_take, List.length_drop]
      simp only [Nat.add_zero]
      by_cases hcol : col < rem
      · rw [if_pos hcol] at hsum ⊢
        omega
      · rw [if_neg hcol] at hsum ⊢
        omega
    | j + 1 =>
      rw [List.getD_cons_succ]
      have hb : (start + (lpc + if col < rem then 1 else 0))
          + sumSizes lpc rem k' (col + 1) ≤ lines.length := by
        by_cases hcol : col < rem
        · rw [if_pos hcol] at hsum ⊢; omega
        · rw [if_neg hcol] at hsum ⊢; omega
      rw [ih (col + 1) _ hb j (by omega)]
      have hidx : col + 1 + j = col + (j + 1) := by omega
      rw [hidx]

/-- C9: Column partition invariant of the splitter: for a non-empty line list
of length `L` and `2 ≤ N ≤ 4`, the splitter's partition consists of `N`
contiguous slices whose concatenation is the original list, where column `i`
has `L / N + 1` lines for `i < L % N` and `L / N` lines otherwise (and
`L / N + 1` is `⌈L / N⌉` whenever `L % N ≠ 0`), so no line is duplicated or
dropped and sizes differ by at most one. -/
theorem computeColumns_partition (lines : List Str) (num_columns : Nat)
    (_hne : lines ≠ []) (h2 : 2 ≤ num_columns) (h4 : num_columns ≤ 4) :
    (computeColumns lines num_columns).length = num_columns
    ∧ (computeColumns lines num_columns).flatten = lines
    ∧ (∀ i, i < num_columns →
        ((computeColumns lines num_columns).getD i []).length
          = if i < lines.length % num_columns
            then lines.length / num_columns + 1
            else lines.length / num_columns)
    ∧ (lines.length % num_columns ≠ 0 →
        lines.length / num_columns + 1
          = (lines.length + num_columns - 1) / num_columns) := by
  have hn : 0 < num_columns := by omega
  have hsumtot : sumSizes (lines.length / num_columns) (lines.length % num_columns)
      num_columns 0 = lines.length := by
    rw [sumSizes_formula]
    have hmod : lines.length % num_columns < num_columns := Nat.mod_lt _ hn
    have hmin1 : min (lines.length % num_columns) (0 + num_columns)
        = lines.length % num_columns := by omega
    have hmin0 : min (lines.length % num_columns) 0 = 0 := by omega
    rw [hmin1, hmin0]
    have hdm := Nat.div_add_mod lines.length num_columns
    omega
  refine ⟨buildColumnsAux_length .., ?_, ?_, ?_⟩
  · unfold computeColumns
    rw [buildColumnsAux_flatten, hsumtot]
    simp
  · intro i hi
    unfold computeColumns
    rw [buildColumnsAux_getD lines _ _ num_columns 0 0 (by rw [hsumtot]; omega) i hi]
    simp only [Nat.zero_add]
    by_cases h : i < lines.length % num_columns <;> simp [h]
  · intro hr
    interval_cases num_columns <;> omega

/-- Witness for C9: the partition of three lines into two columns. -/
theorem computeColumns_partition_witness :
    ((["a".data, "bb".data, "c".data] : List Str) ≠ [] ∧ 2 ≤ 2 ∧ 2 ≤ 4)
    ∧ ((computeColumns (["a".data, "bb".data, "c".data] : List Str) 2).length = 2
       ∧ (computeColumns (["a".data, "bb".data, "c".data] : List Str) 2).flatten
           = ["a".data, "bb".data, "c".data]
       ∧ (∀ i, i < 2 →
           ((computeColumns (["a".data, "bb".data, "c".data] : List Str) 2).getD i []).length
             = if i < ([ "a".data, "bb".data, "c".data] : List Str).length % 2
               then (["a".data, "bb".data, "c".data] : List Str).length / 2 + 1
               else (["a".data, "bb".data, "c".data] : List Str).length / 2)
       ∧ ((["a".data, "bb".data, "c".data] : List Str).length % 2 ≠ 0 →
           (["a".data, "bb".data, "c".data] : List Str).length / 2 + 1
             = ((["a".data, "bb".data, "c".data] : List Str).length + 2 - 1) / 2)) :=
  ⟨⟨by decide, by decide, by decide⟩,
   computeColumns_partition ["a".data, "bb".data, "c".data] 2
     (by decide) (by decide) (by decide)⟩

/-- Counterexample to C1 as stated: for the clipboard text `a|b` (one line
containing a `|`) and 2 columns, joining the split output yields `a\nb`, not
the original text (whose normalization with trailing blank lines removed is
`a|b` itself). -/
theorem join_split_roundtrip_counterexample :
    join_code_columns (split_code_into_columns ("a|b".data) 2 false)
      ≠ pyJoin ("\n".data)
          (popTrailingBlanks (pySplitChar '\n' (normalizeNewlines ("a|b".data))))
    ∧ join_code_columns (split_code_into_columns ("a|b".data) 2 false) = ("a\nb".data)
    ∧ pyJoin ("\n".data)
        (popTrailingBlanks (pySplitChar '\n' (normalizeNewlines ("a|b".data))))
        = ("a|b".data) := by
  exact ⟨by decide, by decide, by decide⟩

/-! ### Lemmas about stripping, joining and rendering for the round-trip -/

lemma mem_dropWhile_of_not_p {α : Type} {p : α → Bool} {c : α} :
    ∀ {l : List α}, c ∈ l → p c = false → c ∈ l.dropWhile p := by
  intro l
  induction l with
  | nil => intro h _; cases h
  | cons d rest ih =>
    intro hmem hpc
    rw [List.dropWhile_cons]
    split_ifs with hd
    · rcases List.mem_cons.mp hmem with rfl | hm
      · rw [hpc] at hd; cases hd
      · exact ih hm hpc
    · exact hmem

lemma mem_of_mem_dropWhile {α : Type} {p : α → Bool} {c : α} :
    ∀ {l : List α}, c ∈ l.dropWhile p → c ∈ l := by
  intro l
  induction l with
  | nil => intro h; cases h
  | cons d rest ih =>
    intro hmem
    rw [List.dropWhile_cons] at hmem
    split_ifs at hmem with hd
    · exact List.mem_cons_of_mem _ (ih hmem)
    · exact hmem

lemma mem_pyRstrip_of_not_ws {c : Char} {l : Str} (hmem : c ∈ l)
    (hws : isPyWS c = false) : c ∈ pyRstrip l := by
  unfold pyRstrip
  rw [List.mem_reverse]
  exact mem_dropWhile_of_not_p (List.mem_reverse.mpr hmem) hws

lemma mem_of_mem_pyRstrip {c : Char} {l : Str} (hmem : c ∈ pyRstrip l) : c ∈ l := by
  unfold pyRstrip at hmem
  rw [List.mem_reverse] at hmem
  exact List.mem_reverse.mp (mem_of_mem_dropWhile hmem)

lemma pyStrip_ne_nil_of_mem {c : Char} {l : Str} (hmem : c ∈ l)
    (hws : isPyWS c = false) : (pyStrip l).isEmpty = false := by
  have h1 : c ∈ pyStrip l :=
    mem_dropWhile_of_not_p (mem_pyRstrip_of_not_ws hmem hws) hws
  cases hst : pyStrip l with
  | nil => rw [hst] at h1; cases h1
  | cons x xs => rfl

lemma dropWhile_self_idem (p : Char → Bool) (l : Str) :
    (l.dropWhile p).dropWhile p = l.dropWhile p := by
  induction l with
  | nil => rfl
  | cons c rest ih =>
    rw [List.dropWhile_cons]
    split_ifs with hc
    · exact ih
    · rw [List.dropWhile_cons, if_neg hc]

lemma pyRstrip_idem (l : Str) : pyRstrip (pyRstrip l) = pyRstrip l := by
  unfold pyRstrip
  rw [List.reverse_reverse, dropWhile_self_idem]

lemma dropWhile_append_of_all {p : Char → Bool} {a : Str} (b : Str)
    (h : ∀ x ∈ a, p x = true) : (a ++ b).dropWhile p = b.dropWhile p := by
  induction a with
  | nil => rfl
  | cons c rest ih =>
    rw [List.cons_append, List.dropWhile_cons,
      if_pos (h c (List.mem_cons_self ..))]
    exact ih (fun x hx => h x (List.mem_cons_of_mem _ hx))

lemma pyRstrip_append_spaces (l : Str) (k : Nat) :
    pyRstrip (l ++ List.replicate k ' ') = pyRstrip l := by
  unfold pyRstrip
  rw [List.reverse_append, List.reverse_replicate]
  rw [dropWhile_append_of_all l.reverse
    (fun x hx => by rw [List.eq_of_mem_replicate hx]; decide)]

lemma pyRstrip_pyLjust (W : Nat) (l : Str) :
    pyRstrip (pyLjust W l) = pyRstrip l := pyRstrip_append_spaces l _

lemma pyRstrip_replicate_space (k : Nat) :
    pyRstrip (List.replicate k ' ') = [] := by
  have h := pyRstrip_append_spaces [] k
  simpa using h

lemma pyRstrip_append_sep {b : Char} (hb : isPyWS b = false) (u w : Str) :
    pyRstrip (u ++ b :: w) = u ++ b :: pyRstrip w := by
  unfold pyRstrip
  rw [List.reverse_append, List.reverse_cons, List.append_assoc,
    List.dropWhile_append]
  by_cases hw : (w.reverse.dropWhile isPyWS).isEmpty = true
  · rw [if_pos hw]
    have hnil : w.reverse.dropWhile isPyWS = [] := by
      cases hd : w.reverse.dropWhile isPyWS with
      | nil => rfl
      | cons x xs => rw [hd] at hw; cases hw
    rw [hnil]
    simp [hb]
  · rw [if_neg hw]
    simp [List.reverse_append, List.append_assoc]

lemma mem_pyJoin_of_mem_part {c : Char} (sep : Str) :
    ∀ (ls : List Str) (l : Str), l ∈ ls → c ∈ l → c ∈ pyJoin sep ls := by
  intro ls
  induction ls with
  | nil => intro l h; cases h
  | cons x rest ih =>
    intro l hl hc
    match rest with
    | [] =>
      rcases List.mem_cons.mp hl with rfl | h
      · exact hc
      · cases h
    | y :: rest' =>
      show c ∈ x ++ sep ++ pyJoin sep (y :: rest')
      rcases List.mem_cons.mp hl with rfl | h
      · exact List.mem_append_left _ (List.mem_append_left _ hc)
      · exact List.mem_append_right _ (ih l h hc)

lemma mem_pyJoin_sep {c : Char} (sep : Str) (hc : c ∈ sep) :
    ∀ (x y : Str) (rest : List Str), c ∈ pyJoin sep (x :: y :: rest) := by
  intro x y rest
  show c ∈ x ++ sep ++ pyJoin sep (y :: rest)
  exact List.mem_append_left _ (List.mem_append_right _ hc)

lemma mem_pyJoin_cases {c : Char} (sep : Str) :
    ∀ (ls : List Str), c ∈ pyJoin sep ls → c ∈ sep ∨ ∃ l ∈ ls, c ∈ l := by
  intro ls
  induction ls with
  | nil => intro h; cases h
  | cons x rest ih =>
    intro hc
    match rest with
    | [] => exact Or.inr ⟨x, List.mem_cons_self .., hc⟩
    | y :: rest' =>
      rw [show pyJoin sep (x :: y :: rest') = x ++ sep ++ pyJoin sep (y :: rest')
        from rfl] at hc
      rcases List.mem_append.mp hc with h1 | h2
      · rcases List.mem_append.mp h1 with hx | hs
        · exact Or.inr ⟨x, List.mem_cons_self .., hx⟩
        · exact Or.inl hs
      · rcases ih h2 with hs | ⟨l, hl, hcl⟩
        · exact Or.inl hs
        · exact Or.inr ⟨l, List.mem_cons_of_mem _ hl, hcl⟩

lemma pyContains_of_mem {c : Char} :
    ∀ {s : Str}, c ∈ s → pyContains s [c] = true := by
  intro s
  induction s with
  | nil => intro h; cases h
  | cons d rest ih =>
    intro hmem
    unfold pyContains
    rcases List.mem_cons.mp hmem with rfl | h
    · have : List.isPrefixOf [c] (c :: rest) = true := by
        simp [List.isPrefixOf]
      rw [this, Bool.true_or]
    · rw [ih h, Bool.or_true]

lemma mem_pySplitChar_subset {c d : Char} :
    ∀ (s : Str) (l : Str), l ∈ pySplitChar c s → d ∈ l → d ∈ s := by
  intro s
  induction s with
  | nil =>
    intro l hl hd
    simp [pySplitChar] at hl
    subst hl
    cases hd
  | cons e rest ih =>
    intro l hl hd
    unfold pySplitChar at hl
    cases hsp : pySplitChar c rest with
    | nil => exact absurd hsp (pySplitChar_ne_nil c rest)
    | cons r rs =>
      rw [hsp] at hl
      dsimp only at hl
      split_ifs at hl with he
      · rcases List.mem_cons.mp hl with rfl | h
        · cases hd
        · exact List.mem_cons_of_mem _ (ih l (hsp ▸ h) hd)
      · rcases List.mem_cons.mp hl with rfl | h
        · rcases List.mem_cons.mp hd with rfl | h2
          · exact List.mem_cons_self ..
          · exact List.mem_cons_of_mem _ (ih r (hsp ▸ List.mem_cons_self ..) h2)
        · exact List.mem_cons_of_mem _ (ih l (hsp ▸ List.mem_cons_of_mem _ h) hd)

lemma popTrailingBlanks_subset {l : Str} {ls : List Str}
    (h : l ∈ popTrailingBlanks ls) : l ∈ ls := by
  unfold popTrailingBlanks at h
  rw [List.mem_reverse] at h
  exact List.mem_reverse.mp (mem_of_mem_dropWhile (p := fun x => (pyStrip x).isEmpty) h)

lemma dropWhile_eq_self_of_all_false {p : Str → Bool} :
    ∀ {l : List Str}, (∀ x ∈ l, p x = false) → l.dropWhile p = l := by
  intro l
  induction l with
  | nil => intro _; rfl
  | cons x rest _ =>
    intro h
    rw [List.dropWhile_cons, h x (List.mem_cons_self ..)]
    simp

lemma popTrailingBlanks_eq_self {ls : List Str}
    (h : ∀ l ∈ ls, (pyStrip l).isEmpty = false) : popTrailingBlanks ls = ls := by
  unfold popTrailingBlanks
  rw [dropWhile_eq_self_of_all_false (fun x hx => h x (List.mem_reverse.mp hx)),
    List.reverse_reverse]

lemma le_listMax_of_mem {x : Nat} : ∀ {l : List Nat}, x ∈ l → x ≤ listMax l := by
  intro l
  induction l with
  | nil => intro h; cases h
  | cons y rest ih =>
    intro h
    rcases List.mem_cons.mp h with rfl | h'
    · exact le_max_left ..
    · exact le_trans (ih h') (le_max_right ..)

lemma listMax_const {n : Nat} :
    ∀ {l : List Nat}, l ≠ [] → (∀ x ∈ l, x = n) → listMax l = n := by
  intro l
  induction l with
  | nil => intro h; exact absurd rfl h
  | cons y rest ih =>
    intro _ hall
    unfold listMax
    dsimp only [List.foldr]
    match rest with
    | [] =>
      simp [hall y (List.mem_cons_self ..)]
    | z :: rest' =>
      have hrest : listMax (z :: rest') = n :=
        ih (by simp) (fun x hx => hall x (List.mem_cons_of_mem _ hx))
      unfold listMax at hrest
      rw [hrest, hall y (List.mem_cons_self ..)]
      simp

lemma normalizeNewlines_no_cr : ∀ (s : Str), '\r' ∉ normalizeNewlines s := by
  intro s
  induction s using normalizeNewlines.induct with
  | case1 => simp [normalizeNewlines]
  | case2 rest ih =>
    rw [normalizeNewlines]
    simp_all
  | case3 rest hne ih =>
    rw [normalizeNewlines.eq_def]
    split <;> simp_all <;> (intro hc; subst hc; simp_all)
  | case4 c rest h1 h2 ih =>
    rw [normalizeNewlines.eq_def]
    split <;> simp_all <;> (intro hc; subst hc; simp_all)

lemma normalizeNewlines_eq_self : ∀ (s : Str), '\r' ∉ s → normalizeNewlines s = s := by
  intro s
  induction s using normalizeNewlines.induct with
  | case1 => intro _; rfl
  | case2 rest ih =>
    intro h
    simp at h
  | case3 rest hne ih =>
    intro h
    simp at h
  | case4 c rest h1 h2 ih =>
    intro h
    rw [normalizeNewlines.eq_def]
    split <;> simp_all

lemma filterMap_congr_mem {α β : Type} (f g : α → Option β) :
    ∀ (l : List α), (∀ a ∈ l, f a = g a) → l.filterMap f = l.filterMap g := by
  intro l
  induction l with
  | nil => intro _; rfl
  | cons a rest ih =>
    intro h
    rw [List.filterMap_cons, List.filterMap_cons, h a (List.mem_cons_self ..),
      ih (fun x hx => h x (List.mem_cons_of_mem _ hx))]

lemma map_getD_range {α : Type} (d : α) (l : List α) :
    (List.range l.length).map (fun i => l.getD i d) = l := by
  apply List.ext_getElem
  · simp
  · intro i h1 h2
    simp only [List.getElem_map, List.getElem_range]
    exact (List.getD_eq_getElem l d h2).symm ▸ rfl

lemma range_filterMap_if {α : Type} (f : Nat → α) :
    ∀ (H L : Nat), L ≤ H →
      (List.range H).filterMap (fun r => if r < L then some (f r) else none)
        = (List.range L).map f := by
  intro H
  induction H with
  | zero =>
    intro L hL
    have : L = 0 := by omega
    subst this
    rfl
  | succ H' ih =>
    intro L hL
    have hr : List.range (H' + 1) = List.range H' ++ [H'] := List.range_succ H'
    rw [hr, List.filterMap_append]
    by_cases hcase : L ≤ H'
    · rw [ih L hcase]
      have : [H'].filterMap (fun r => if r < L then some (f r) else none) = [] := by
        simp only [List.filterMap_cons]
        rw [if_neg (by omega)]
        rfl
      rw [this, List.append_nil]
    · have hLeq : L = H' + 1 := by omega
      subst hLeq
      have h1 : (List.range H').filterMap
          (fun r => if r < H' + 1 then some (f r) else none)
          = (List.range H').map f := by
        rw [filterMap_congr_mem _ (fun r => some (f r)) (List.range H')
          (fun a ha => by rw [if_pos (by simpa using Nat.lt_succ_of_lt (List.mem_range.mp ha))])]
        exact List.filterMap_eq_map f ▸ rfl
      rw [h1]
      have h2 : [H'].filterMap (fun r => if r < H' + 1 then some (f r) else none)
          = [f H'] := by
        simp only [List.filterMap_cons]
        rw [if_pos (by omega)]
        rfl
      rw [h2, List.range_succ, List.map_append]
      rfl

lemma getD_map_of_lt {α β : Type} (f : α → β) (l : List α) (c : Nat)
    (d : α) (d' : β) (h : c < l.length) :
    (l.map f).getD c d' = f (l.getD c d) := by
  rw [List.getD_eq_getElem _ d' (by simpa using h), List.getD_eq_getElem _ d h,
    List.getElem_map]

lemma getD_mem_of_lt {α : Type} (l : List α) (c : Nat) (d : α)
    (h : c < l.length) : l.getD c d ∈ l := by
  rw [List.getD_eq_getElem _ d h]
  exact List.getElem_mem h

lemma parse_render_row (cells : List Str)
    (hnosep : ∀ cl ∈ cells, '|' ∉ cl) (hne : cells ≠ []) :
    (pySplitChar '|' (pyRstrip (pyJoin ("|".data) cells))).map pyRstrip
      = cells.map pyRstrip := by
  induction cells with
  | nil => exact absurd rfl hne
  | cons x rest ih =>
    match rest with
    | [] =>
      show (pySplitChar '|' (pyRstrip x)).map pyRstrip = [pyRstrip x]
      have hx : '|' ∉ pyRstrip x :=
        fun h => hnosep x (List.mem_cons_self ..) (mem_of_mem_pyRstrip h)
      rw [pySplitChar_of_not_mem _ _ hx]
      simp [pyRstrip_idem]
    | y :: rest' =>
      have hx : '|' ∉ x := hnosep x (List.mem_cons_self ..)
      have hrest : ∀ cl ∈ y :: rest', '|' ∉ cl :=
        fun cl hcl => hnosep cl (List.mem_cons_of_mem _ hcl)
      have hjoin : pyJoin ("|".data) (x :: y :: rest')
          = x ++ '|' :: pyJoin ("|".data) (y :: rest') := by
        show x ++ ("|".data) ++ pyJoin ("|".data) (y :: rest') = _
        rw [List.append_assoc]
        rfl
      rw [hjoin, pyRstrip_append_sep (by decide) x _,
        pySplitChar_append_cons _ _ _ hx, List.map_cons, ih hrest (by simp),
        List.map_cons]
      rfl

lemma sumSizes_total (L n : Nat) (hn : 0 < n) :
    sumSizes (L / n) (L % n) n 0 = L := by
  rw [sumSizes_formula]
  have hmod : L % n < n := Nat.mod_lt _ hn
  have hmin1 : min (L % n) (0 + n) = L % n := by omega
  have hmin0 : min (L % n) 0 = 0 := by omega
  rw [hmin1, hmin0]
  have hdm := Nat.div_add_mod L n
  omega

lemma computeColumns_flatten {α : Type} (lines : List α) (n : Nat) (hn : 0 < n) :
    (computeColumns lines n).flatten = lines := by
  unfold computeColumns
  rw [buildColumnsAux_flatten, sumSizes_total _ _ hn]
  simp

lemma computeColumns_getD_length {α : Type} (lines : List α) (n : Nat)
    (hn : 0 < n) (i : Nat) (hi : i < n) :
    ((computeColumns lines n).getD i []).length
      = lines.length / n + (if i < lines.length % n then 1 else 0) := by
  unfold computeColumns
  rw [buildColumnsAux_getD lines _ _ n 0 0 (by rw [sumSizes_total _ _ hn]; omega) i hi]
  simp only [Nat.zero_add]

lemma computeColumns_head_pos {α : Type} (lines : List α) (n : Nat)
    (hn : 0 < n) (hl : lines ≠ []) :
    0 < ((computeColumns lines n).getD 0 []).length := by
  rw [computeColumns_getD_length lines n hn 0 hn]
  have hlen : 0 < lines.length := List.length_pos.mpr hl
  by_cases hr : lines.length % n = 0
  · rw [hr]
    simp only [Nat.lt_irrefl, if_false]
    rcases Nat.eq_zero_or_pos (lines.length / n) with hq | hq
    · exfalso
      have hdm := Nat.div_add_mod lines.length n
      rw [hq, hr] at hdm
      simp at hdm
      omega
    · omega
  · have hrpos : 0 < lines.length % n := Nat.pos_of_ne_zero hr
    rw [if_pos hrpos]
    exact Nat.succ_pos _

lemma split_eval (text : Str) (num_columns : Nat)
    (hne : popTrailingBlanks (pySplitChar '\n' (normalizeNewlines text)) ≠ [])
    (hn1 : num_columns ≠ 1) :
    split_code_into_columns text num_columns false
      = pyJoin ("\n".data)
          ((List.range (listMax ((computeColumns
              (popTrailingBlanks (pySplitChar '\n' (normalizeNewlines text)))
              num_columns).map List.length))).map
            (splitRow
              (max (listMax ((popTrailingBlanks (pySplitChar '\n'
                (normalizeNewlines text))).map List.length) + 2) 40)
              (computeColumns
                (popTrailingBlanks (pySplitChar '\n' (normalizeNewlines text)))
                num_columns))) := by
  unfold split_code_into_columns
  rw [if_neg hne]
  dsimp only
  rw [if_neg hn1]
  simp only [Bool.false_eq_true, if_false]

lemma roundtrip_core (lines : List Str) (n : Nat) (h2 : 2 ≤ n)
    (hne : lines ≠ [])
    (hprops : ∀ l ∈ lines,
      pyStrip l ≠ [] ∧ '|' ∉ l ∧ pyRstrip l = l ∧ matchLineNumPat l = false)
    (hnoNL : ∀ l ∈ lines, '\n' ∉ l)
    (hnoCR : ∀ l ∈ lines, '\r' ∉ l) :
    join_code_columns (pyJoin ("\n".data)
        ((List.range (listMax ((computeColumns lines n).map List.length))).map
          (splitRow (max (listMax (lines.map List.length) + 2) 40)
            (computeColumns lines n))))
      = pyJoin ("\n".data) lines := by
  set W := max (listMax (lines.map List.length) + 2) 40 with hW_def
  set columns := computeColumns lines n with hcols_def
  set H := listMax (columns.map List.length) with hH_def
  have hn : 0 < n := by omega
  have hcolslen : columns.length = n := buildColumnsAux_length ..
  have hcolsne : columns ≠ [] := by
    intro h
    rw [h] at hcolslen
    simp at hcolslen
    omega
  have hflat : columns.flatten = lines := computeColumns_flatten lines n hn
  have hmemlines : ∀ col ∈ columns, ∀ r, r < col.length → col.getD r [] ∈ lines := by
    intro col hcol r hr
    rw [← hflat]
    exact List.mem_flatten.mpr ⟨col, hcol, getD_mem_of_lt col r [] hr⟩
  have hcol0mem : columns.getD 0 [] ∈ columns :=
    getD_mem_of_lt columns 0 [] (by omega)
  have hH1 : 1 ≤ H := by
    have h0 : 0 < (columns.getD 0 []).length :=
      computeColumns_head_pos lines n hn hne
    have hmem : (columns.getD 0 []).length ∈ columns.map List.length :=
      List.mem_map.mpr ⟨_, hcol0mem, rfl⟩
    exact le_trans h0 (le_listMax_of_mem hmem)
  have hcollen_le : ∀ col ∈ columns, col.length ≤ H := fun col hcol =>
    le_listMax_of_mem (List.mem_map.mpr ⟨_, hcol, rfl⟩)
  -- characters of a rendered cell
  have hcellchars : ∀ (r : Nat), ∀ col ∈ columns,
      ∀ c ∈ splitCell W r col, (c ∈ col.getD r [] ∧ r < col.length) ∨ c = ' ' := by
    intro r col _ c hc
    unfold splitCell at hc
    split_ifs at hc with hlt
    · unfold pyLjust at hc
      rcases List.mem_append.mp hc with h1 | h1
      · exact Or.inl ⟨h1, hlt⟩
      · exact Or.inr (List.eq_of_mem_replicate h1)
    · exact Or.inr (List.eq_of_mem_replicate hc)
  have hcellnosep : ∀ (r : Nat), ∀ cl ∈ columns.map (splitCell W r), '|' ∉ cl := by
    intro r cl hcl hmem
    obtain ⟨col, hcol, rfl⟩ := List.mem_map.mp hcl
    rcases hcellchars r col hcol _ hmem with ⟨h1, hlt⟩ | h1
    · exact (hprops _ (hmemlines col hcol r hlt)).2.1 h1
    · exact absurd h1 (by decide)
  have hcellsne : ∀ r : Nat, columns.map (splitCell W r) ≠ [] := by
    intro r h
    rw [List.map_eq_nil_iff] at h
    exact hcolsne h
  -- characters of a rendered row
  have hrow_pipe : ∀ r : Nat, '|' ∈ splitRow W columns r := by
    intro r
    unfold splitRow
    obtain ⟨x, xs, hx⟩ := List.exists_cons_of_ne_nil (hcellsne r)
    have hxs : xs ≠ [] := by
      intro h
      have := congrArg List.length hx
      rw [h] at this
      simp [hcolslen] at this
      omega
    obtain ⟨y, ys, hy⟩ := List.exists_cons_of_ne_nil hxs
    rw [hx, hy]
    exact mem_pyRstrip_of_not_ws
      (mem_pyJoin_sep ("|".data) (by decide) x y ys) (by decide)
  have hrow_chars : ∀ (r : Nat) (c : Char), c ∈ splitRow W columns r →
      c = '|' ∨ c = ' ' ∨ ∃ l ∈ lines, c ∈ l := by
    intro r c hc
    unfold splitRow at hc
    have hc2 := mem_of_mem_pyRstrip hc
    rcases mem_pyJoin_cases _ _ hc2 with hs | ⟨cl, hcl, hccl⟩
    · left
      simpa using hs
    · obtain ⟨col, hcol, rfl⟩ := List.mem_map.mp hcl
      rcases hcellchars r col hcol c hccl with ⟨h1, hlt⟩ | h1
      · exact Or.inr (Or.inr ⟨_, hmemlines col hcol r hlt, h1⟩)
      · exact Or.inr (Or.inl h1)
  have hrowNL : ∀ r : Nat, '\n' ∉ splitRow W columns r := by
    intro r h
    rcases hrow_chars r _ h with h1 | h1 | ⟨l, hl, hc⟩
    · exact absurd h1 (by decide)
    · exact absurd h1 (by decide)
    · exact hnoNL l hl hc
  have hrowCR : ∀ r : Nat, '\r' ∉ splitRow W columns r := by
    intro r h
    rcases hrow_chars r _ h with h1 | h1 | ⟨l, hl, hc⟩
    · exact absurd h1 (by decide)
    · exact absurd h1 (by decide)
    · exact hnoCR l hl hc
  have hrow_strip : ∀ r : Nat, (pyStrip (splitRow W columns r)).isEmpty = false :=
    fun r => pyStrip_ne_nil_of_mem (hrow_pipe r) (by decide)
  -- the rendered output
  set R := (List.range H).map (splitRow W columns) with hR_def
  have hRne : R ≠ [] := by
    rw [hR_def]
    intro h
    rw [List.map_eq_nil_iff] at h
    have := congrArg List.length h
    simp at this
    omega
  have hRmem : ∀ row ∈ R, ∃ r, row = splitRow W columns r := by
    intro row hrow
    obtain ⟨r, _, rfl⟩ := List.mem_map.mp hrow
    exact ⟨r, rfl⟩
  set S := pyJoin ("\n".data) R with hS_def
  have hSnoCR : '\r' ∉ S := by
    intro h
    rcases mem_pyJoin_cases _ _ h with hs | ⟨row, hrow, hc⟩
    · simp at hs
    · obtain ⟨r, rfl⟩ := hRmem row hrow
      exact hrowCR r hc
  have hnorm : normalizeNewlines S = S := normalizeNewlines_eq_self S hSnoCR
  have hsplitS : pySplitChar '\n' S = R := by
    rw [hS_def]
    refine pySplitChar_pyJoin '\n' R ?_ hRne
    intro row hrow
    obtain ⟨r, rfl⟩ := hRmem row hrow
    exact hrowNL r
  have hpop : popTrailingBlanks R = R := by
    refine popTrailingBlanks_eq_self ?_
    intro row hrow
    obtain ⟨r, rfl⟩ := hRmem row hrow
    exact hrow_strip r
  have hrow0 : splitRow W columns 0 ∈ R := by
    rw [hR_def]
    exact List.mem_map.mpr ⟨0, List.mem_range.mpr (by omega), rfl⟩
  have hcontains : pyContains S ("|".data) = true :=
    pyContains_of_mem (mem_pyJoin_of_mem_part _ R _ hrow0 (hrow_pipe 0))
  -- parsing each row recovers the cells
  have hparse : ∀ r, r < H → joinParseRow (splitRow W columns r)
      = columns.map (fun col => if r < col.length then col.getD r [] else []) := by
    intro r _
    unfold joinParseRow
    rw [if_pos (pyContains_of_mem (hrow_pipe r))]
    unfold splitRow
    rw [parse_render_row (columns.map (splitCell W r)) (hcellnosep r) (hcellsne r)]
    rw [List.map_map]
    refine List.map_congr_left ?_
    intro col hcol
    show pyRstrip (splitCell W r col) = _
    unfold splitCell
    split_ifs with hlt
    · rw [pyRstrip_pyLjust]
      exact (hprops _ (hmemlines col hcol r hlt)).2.2.1
    · exact pyRstrip_replicate_space W
  have hallcols : R.map joinParseRow
      = (List.range H).map (fun r =>
          columns.map (fun col => if r < col.length then col.getD r [] else [])) := by
    rw [hR_def, List.map_map]
    refine List.map_congr_left ?_
    intro r hr
    exact hparse r (List.mem_range.mp hr)
  have hallcolsne : R.map joinParseRow ≠ [] := by
    intro h
    rw [List.map_eq_nil_iff] at h
    exact hRne h
  have hmaxcols : listMax ((R.map joinParseRow).map List.length) = n := by
    refine listMax_const (by simpa [List.map_eq_nil_iff] using hallcolsne) ?_
    intro x hx
    rw [hallcols] at hx
    rw [List.map_map] at hx
    obtain ⟨r, _, rfl⟩ := List.mem_map.mp hx
    simp [hcolslen]
  -- reconstructing each column
  have hrecon : ∀ c, c < n → (R.map joinParseRow).filterMap (joinPick c)
      = columns.getD c [] := by
    intro c hc
    rw [hallcols, List.filterMap_map]
    have hclen : c < columns.length := by omega
    have hcolmem : columns.getD c [] ∈ columns := getD_mem_of_lt columns c [] hclen
    have hpoint : ∀ r ∈ List.range H,
        (joinPick c ∘ fun r =>
          columns.map (fun col => if r < col.length then col.getD r [] else [])) r
        = if r < (columns.getD c []).length
          then some ((columns.getD c []).getD r []) else none := by
      intro r _
      show joinPick c (columns.map (fun col => if r < col.length then col.getD r [] else [])) = _
      unfold joinPick
      have hlen : (columns.map (fun col => if r < col.length then col.getD r [] else [])).length
          = columns.length := by simp
      by_cases hlt : r < (columns.getD c []).length
      · have hcell : (columns.map (fun col => if r < col.length then col.getD r [] else [])).getD c []
            = (columns.getD c []).getD r [] := by
          rw [getD_map_of_lt _ columns c [] [] hclen, if_pos hlt]
        have hstripb : (pyStrip ((columns.getD c []).getD r [])).isEmpty = false := by
          have hstrip : pyStrip ((columns.getD c []).getD r []) ≠ [] :=
            (hprops _ (hmemlines _ hcolmem r hlt)).1
          cases hst : pyStrip ((columns.getD c []).getD r []) with
          | nil => exact absurd hst hstrip
          | cons a as => rfl
        have hmln : matchLineNumPat ((columns.getD c []).getD r []) = false :=
          (hprops _ (hmemlines _ hcolmem r hlt)).2.2.2
        rw [hcell]
        rw [if_pos ⟨by omega, by rw [hstripb]; rfl⟩, if_pos hlt, hmln]
        simp
      · have hcell : (columns.map (fun col => if r < col.length then col.getD r [] else [])).getD c []
            = [] := by
          rw [getD_map_of_lt _ columns c [] [] hclen, if_neg hlt]
        rw [hcell, if_neg, if_neg hlt]
        rintro ⟨_, habs⟩
        simp [pyStrip, pyLstrip, pyRstrip] at habs
    rw [filterMap_congr_mem _ _ _ hpoint,
      range_filterMap_if _ H (columns.getD c []).length (hcollen_le _ hcolmem),
      map_getD_range]
  -- assembling the join
  have hjoin_flat : (List.range n).flatMap
      (fun col_idx => (R.map joinParseRow).filterMap (joinPick col_idx)) = lines := by
    have h1 : (List.range n).map
        (fun col_idx => (R.map joinParseRow).filterMap (joinPick col_idx))
        = (List.range n).map (fun c => columns.getD c []) := by
      refine List.map_congr_left ?_
      intro c hcmem
      exact hrecon c (List.mem_range.mp hcmem)
    rw [List.flatMap_def, h1]
    rw [show n = columns.length from hcolslen.symm, map_getD_range, hflat]
  -- evaluate join_code_columns
  unfold join_code_columns
  rw [hnorm, hsplitS, hpop, if_neg hRne, hcontains]
  simp only [Bool.not_true, Bool.false_eq_true, if_false]
  rw [if_neg hallcolsne]
  rw [hmaxcols, hjoin_flat]

/-- C1 (amended): Split/join round-trip for separator-free content: for every
clipboard text and column count `N` with `2 ≤ N ≤ 4`, if after newline
normalization and removal of trailing blank lines the text is non-empty and
each of its lines is non-blank, contains no `|`, carries no trailing
whitespace and does not begin with a line-number-like `<digits>:` prefix,
then applying `join_code_columns` to the result of
`split_code_into_columns(text, N, add_line_numbers=False)` yields back the
normalized text.  (As stated the claim fails: `join_code_columns` splits at
every `|`, drops blank lines, right-strips each line and removes `<digits>:`
prefixes — see the counterexample.) -/
theorem join_split_roundtrip (text : Str) (num_columns : Nat)
    (h2 : 2 ≤ num_columns) (h4 : num_columns ≤ 4)
    (hne : popTrailingBlanks (pySplitChar '\n' (normalizeNewlines text)) ≠ [])
    (hprops : ∀ l ∈ popTrailingBlanks (pySplitChar '\n' (normalizeNewlines text)),
      pyStrip l ≠ [] ∧ '|' ∉ l ∧ pyRstrip l = l ∧ matchLineNumPat l = false) :
    join_code_columns (split_code_into_columns text num_columns false)
      = pyJoin ("\n".data)
          (popTrailingBlanks (pySplitChar '\n' (normalizeNewlines text))) := by
  rw [split_eval text num_columns hne (by omega)]
  exact roundtrip_core _ num_columns h2 hne hprops
    (fun l hl h => pySplitChar_not_mem '\n' _ l (popTrailingBlanks_subset hl) h)
    (fun l hl h => normalizeNewlines_no_cr text
      (mem_pySplitChar_subset _ l (popTrailingBlanks_subset hl) h))

/-- Witness for the amended C1: the three-line text `ab\ncd\nef` split into
two columns and joined back. -/
theorem join_split_roundtrip_witness :
    (2 ≤ 2 ∧ 2 ≤ 4
     ∧ popTrailingBlanks (pySplitChar '\n' (normalizeNewlines ("ab\ncd\nef".data))) ≠ [])
    ∧ join_code_columns (split_code_into_columns ("ab\ncd\nef".data) 2 false)
        = pyJoin ("\n".data)
            (popTrailingBlanks (pySplitChar '\n' (normalizeNewlines ("ab\ncd\nef".data)))) :=
  ⟨⟨by decide, by decide, by decide⟩,
   join_split_roundtrip ("ab\ncd\nef".data) 2 (by decide) (by decide) (by decide)
     (by decide)⟩
